import Mathlib

/-!
Verification development for the chaostoolkit-opentracing adapter.

Two modules of the repository are embedded:

- `Oltp`: the event-registry handler `OLTPRunEventHandler` from
  `chaostracing/oltp.py`.  Its mutable fields become a `HandlerState`
  record, OpenTelemetry spans become entries of a keyed list, and each
  handler method becomes a state-passing function.  Wall-clock reads
  (span start on `new_span` without an explicit time, span end on
  `ExitStack.close`) are passed in as an explicit `now` argument, and
  `secrets.token_hex(6)` is passed in as an explicit `tok` argument
  (modelling the external randomness source).

- `Ctl`: the opentracing hook functions from `chaostracing/control.py`.
  The scope manager is modelled after the ThreadLocal scope manager used
  by the real (jaeger / opentelemetry-shim) tracers: `active` is an
  optional scope, `Scope.close` is a no-op unless the scope is the
  active one, and closing restores the scope that was active when the
  scope was created.  `Span.finish` calls are counted per span so that
  double-finishing is observable.  `tracer.inject` is modelled by an
  explicit list of header entries supplied by the caller.

Python dictionaries are association lists with dict update semantics
(update in place, insert at the end); Python values are the inductive
`PyVal`.  Exceptions escaping a hook are modelled by an `Option PyErr`
result component; the state component always reflects the mutations
performed before the exception was raised.
-/

/-- A Python value, as far as the adapter inspects payloads. -/
inductive PyVal where
  | vnone
  | vbool (b : Bool)
  | vint (n : Int)
  | vstr (s : String)
  | vlist (l : List PyVal)
  | vdict (d : List (String × PyVal))

/-- A Python exception class escaping (or caught inside) a hook. -/
inductive PyErr where
  | attributeError
  | keyError
  | indexError
  | typeError
  deriving DecidableEq, Repr

/-- Truthiness of a Python value (`if x:`). -/
def pyTruthy : PyVal → Bool
  | .vnone => false
  | .vbool b => b
  | .vint n => n ≠ 0
  | .vstr s => s ≠ ""
  | .vlist l => ¬ l.isEmpty
  | .vdict d => ¬ d.isEmpty

/-- Equality test of a Python value against a string literal (`v == "s"`). -/
def pyEqStr (v : PyVal) (t : String) : Bool :=
  match v with
  | .vstr s => s = t
  | _ => false

/-- `str.upper` for the ASCII strings the adapter handles. -/
def pyUpper (s : String) : String :=
  String.mk (s.data.map Char.toUpper)

/-- First-match lookup in an association list (Python `d.get(k)` / `d[k]`). -/
def aGet {κ α : Type} [DecidableEq κ] : List (κ × α) → κ → Option α
  | [], _ => none
  | (k1, v1) :: rest, k => if k1 = k then some v1 else aGet rest k

/-- Dict update semantics: replace the value in place if the key exists,
append the binding otherwise (Python `d[k] = v`). -/
def aUpd {κ α : Type} [DecidableEq κ] : List (κ × α) → κ → α → List (κ × α)
  | [], k, v => [(k, v)]
  | (k1, v1) :: rest, k, v =>
    if k1 = k then (k1, v) :: rest else (k1, v1) :: aUpd rest k v

/-- Remove the binding of a key (Python `d.pop(k)` after a successful lookup). -/
def aDel {κ α : Type} [DecidableEq κ] : List (κ × α) → κ → List (κ × α)
  | [], _ => []
  | (k1, v1) :: rest, k =>
    if k1 = k then rest else (k1, v1) :: aDel rest k

/-- Key membership (Python `k in d`). -/
def aHas {κ α : Type} [DecidableEq κ] (l : List (κ × α)) (k : κ) : Bool :=
  (aGet l k).isSome

/-- Update the value stored under a key by a function, leaving other
entries untouched. -/
def updKeyed {κ α : Type} [DecidableEq κ] (k : κ) (f : α → α)
    (l : List (κ × α)) : List (κ × α) :=
  l.map fun e => if e.1 = k then (e.1, f e.2) else e

/-- A Python dict with string keys. -/
abbrev PyDict := List (String × PyVal)

/-- `d.get(k)`: the stored value or `None`. -/
def dGet (d : PyDict) (k : String) : PyVal :=
  (aGet d k).getD .vnone

/-- `d.get(k, default)`. -/
def dGetD (d : PyDict) (k : String) (dflt : PyVal) : PyVal :=
  (aGet d k).getD dflt

namespace Oltp

/-- An attribute value handed to `Span.set_attribute`: either a Python
value passed through, or the `json.dumps` serialization of one (the
serialization itself is kept symbolic). -/
inductive AttrVal where
  | py (v : PyVal)
  | jsonOf (v : PyVal)

/-- One OpenTelemetry span as the handler observes it: creation data,
attributes in `set_attribute` order, and the recorded times.  `endTime`
is `none` while the span is open; `set_attribute` and `end` on an ended
span are no-ops (OpenTelemetry drops them with a warning). -/
structure SpanData where
  name : String
  parent : Option Nat
  attrs : List (String × AttrVal)
  startTime : Int
  endTime : Option Int

/-- The state of an `ExitStack` field of the handler: Python `None`, an
emptied (already closed) stack, or a stack that will end the given span
when closed. -/
inductive StackSt where
  | noStack
  | emptied
  | pending (sid : Nat)
  deriving DecidableEq, Repr

/-- The mutable state of `OLTPRunEventHandler` plus the set of spans it
has created (keyed by allocation order). -/
structure HandlerState where
  spans : List (Nat × SpanData)
  nextId : Nat
  rootStack : StackSt
  rootSpan : Option Nat
  beforeSshSpan : Option Nat
  beforeSshStack : StackSt
  afterSshStack : StackSt
  afterSshSpan : Option Nat
  methodStack : StackSt
  methodSpan : Option Nat
  rollbacksStack : StackSt
  rollbacksSpan : Option Nat
  continuousStack : StackSt
  continuousSpan : Option Nat
  activityStacks : List (String × Nat)
  activitySpans : List (String × Nat)
  currentSpan : Option Nat

/-- The state produced by `OLTPRunEventHandler.__init__`. -/
def initState : HandlerState :=
  { spans := [], nextId := 0,
    rootStack := .noStack, rootSpan := none,
    beforeSshSpan := none, beforeSshStack := .noStack,
    afterSshStack := .noStack, afterSshSpan := none,
    methodStack := .noStack, methodSpan := none,
    rollbacksStack := .noStack, rollbacksSpan := none,
    continuousStack := .noStack, continuousSpan := none,
    activityStacks := [], activitySpans := [],
    currentSpan := none }

/-- `new_span(name, parent, start_time)`: allocate a fresh span.  The
explicit parent passed by the handler is the only parenting mechanism in
`oltp.py` (`set_span_in_context(parent)`). -/
def allocSpan (name : String) (parent : Option Nat) (startT : Int)
    (s : HandlerState) : Nat × HandlerState :=
  (s.nextId,
   { s with
      spans := s.spans ++
        [(s.nextId,
          { name := name, parent := parent, attrs := [],
            startTime := startT, endTime := none })],
      nextId := s.nextId + 1 })

/-- Apply a mutation to the span with the given id. -/
def updateSpan (sid : Nat) (f : SpanData → SpanData)
    (s : HandlerState) : HandlerState :=
  { s with spans := updKeyed sid f s.spans }

/-- `span.set_attribute(key, value)`: dropped if the span has ended. -/
def setAttr (sid : Nat) (k : String) (v : AttrVal)
    (s : HandlerState) : HandlerState :=
  updateSpan sid
    (fun d => if d.endTime.isSome then d else { d with attrs := aUpd d.attrs k v })
    s

/-- `span.end(end_time)`: dropped if the span has already ended. -/
def endSpanAt (sid : Nat) (t : Int) (s : HandlerState) : HandlerState :=
  updateSpan sid
    (fun d => if d.endTime.isSome then d else { d with endTime := some t })
    s

/-- `stack.close()` on an `ExitStack` field: `None.close()` raises
`AttributeError`; closing an emptied stack does nothing; closing a
pending stack ends its span at the current time and empties the stack. -/
def closeStack (st : StackSt) (now : Int) (s : HandlerState) :
    (StackSt × HandlerState) × Option PyErr :=
  match st with
  | .noStack => ((.noStack, s), some .attributeError)
  | .emptied => ((.emptied, s), none)
  | .pending sid => ((.emptied, endSpanAt sid now s), none)

/-- `OLTPRunEventHandler.started`. -/
def started (experiment : PyDict) (platformFull : String) (now : Int)
    (s : HandlerState) : HandlerState :=
  let a := allocSpan "experiment" none now s
  let sid := a.1
  let s := setAttr sid "chaostoolkit.experiment.title"
    (.py (dGet experiment "title")) a.2
  let s := setAttr sid "chaostoolkit.platform.full"
    (.py (.vstr platformFull)) s
  { s with rootStack := .pending sid, rootSpan := some sid,
           currentSpan := some sid }

/-- `OLTPRunEventHandler.finish`. -/
def finish (journal : PyDict) (now : Int) (s : HandlerState) :
    HandlerState × Option PyErr :=
  match s.rootSpan with
  | none => ({ s with rootSpan := none }, some .attributeError)
  | some sid =>
    let s := { s with rootSpan := none }
    let s := setAttr sid "chaostoolkit.experiment.status"
      (.py (dGet journal "status")) s
    let s := setAttr sid "chaostoolkit.experiment.deviated"
      (.py (dGet journal "deviated")) s
    let r := closeStack s.rootStack now s
    ({ r.1.2 with rootStack := r.1.1 }, r.2)

/-- `OLTPRunEventHandler.interrupted`: tags the root span only. -/
def interrupted (s : HandlerState) : HandlerState × Option PyErr :=
  match s.rootSpan with
  | none => (s, some .attributeError)
  | some sid =>
    (setAttr sid "chaostoolkit.experiment.interrupted"
      (.py (.vbool true)) s, none)

/-- `OLTPRunEventHandler.signal_exit`: tags the root span only. -/
def signal_exit (s : HandlerState) : HandlerState × Option PyErr :=
  match s.rootSpan with
  | none => (s, some .attributeError)
  | some sid =>
    (setAttr sid "chaostoolkit.experiment.exit_signal"
      (.py (.vbool true)) s, none)

/-- `OLTPRunEventHandler.start_continuous_hypothesis`.  Note: it does
not touch `current_span`. -/
def start_continuous_hypothesis (now : Int) (s : HandlerState) :
    HandlerState :=
  let a := allocSpan "hypothesis" s.rootSpan now s
  let s := setAttr a.1 "chaostoolkit.hypothesis.phase"
    (.py (.vstr "continuous")) a.2
  { s with continuousStack := .pending a.1, continuousSpan := some a.1 }

/-- `OLTPRunEventHandler.continuous_hypothesis_completed`.  Note: it
does not touch `current_span`. -/
def continuous_hypothesis_completed (now : Int) (s : HandlerState) :
    HandlerState × Option PyErr :=
  let s := { s with continuousSpan := none }
  let r := closeStack s.continuousStack now s
  ({ r.1.2 with continuousStack := r.1.1 }, r.2)

/-- `OLTPRunEventHandler.start_hypothesis_before`. -/
def start_hypothesis_before (now : Int) (s : HandlerState) : HandlerState :=
  let a := allocSpan "hypothesis" s.rootSpan now s
  let s := setAttr a.1 "chaostoolkit.hypothesis.phase"
    (.py (.vstr "before")) a.2
  { s with beforeSshStack := .pending a.1, beforeSshSpan := some a.1,
           currentSpan := some a.1 }

/-- `OLTPRunEventHandler.hypothesis_before_completed`.  The field
mutations happen before the span is dereferenced, matching the source
order. -/
def hypothesis_before_completed (stateD : PyDict) (now : Int)
    (s : HandlerState) : HandlerState × Option PyErr :=
  let sp := s.beforeSshSpan
  let s := { s with beforeSshSpan := none, currentSpan := s.rootSpan }
  match sp with
  | none => (s, some .attributeError)
  | some sid =>
    let s := setAttr sid "chaostoolkit.hypothesis.met"
      (.py (dGet stateD "steady_state_met")) s
    let r := closeStack s.beforeSshStack now s
    ({ r.1.2 with beforeSshStack := r.1.1 }, r.2)

/-- `OLTPRunEventHandler.start_hypothesis_after`. -/
def start_hypothesis_after (now : Int) (s : HandlerState) : HandlerState :=
  let a := allocSpan "hypothesis" s.rootSpan now s
  let s := setAttr a.1 "chaostoolkit.hypothesis.phase"
    (.py (.vstr "after")) a.2
  { s with afterSshStack := .pending a.1, afterSshSpan := some a.1,
           currentSpan := some a.1 }

/-- `OLTPRunEventHandler.hypothesis_after_completed`. -/
def hypothesis_after_completed (stateD : PyDict) (now : Int)
    (s : HandlerState) : HandlerState × Option PyErr :=
  let sp := s.afterSshSpan
  let s := { s with afterSshSpan := none, currentSpan := s.rootSpan }
  match sp with
  | none => (s, some .attributeError)
  | some sid =>
    let s := setAttr sid "chaostoolkit.hypothesis.met"
      (.py (dGet stateD "steady_state_met")) s
    let r := closeStack s.afterSshStack now s
    ({ r.1.2 with afterSshStack := r.1.1 }, r.2)

/-- `OLTPRunEventHandler.start_method`. -/
def start_method (now : Int) (s : HandlerState) : HandlerState :=
  let a := allocSpan "method" s.rootSpan now s
  { a.2 with methodStack := .pending a.1, methodSpan := some a.1,
             currentSpan := some a.1 }

/-- `OLTPRunEventHandler.method_completed`. -/
def method_completed (now : Int) (s : HandlerState) :
    HandlerState × Option PyErr :=
  let s := { s with methodSpan := none, currentSpan := s.rootSpan }
  let r := closeStack s.methodStack now s
  ({ r.1.2 with methodStack := r.1.1 }, r.2)

/-- `OLTPRunEventHandler.start_rollbacks`. -/
def start_rollbacks (now : Int) (s : HandlerState) : HandlerState :=
  let a := allocSpan "rollbacks" s.rootSpan now s
  { a.2 with rollbacksStack := .pending a.1, rollbacksSpan := some a.1,
             currentSpan := some a.1 }

/-- `OLTPRunEventHandler.rollbacks_completed`. -/
def rollbacks_completed (now : Int) (s : HandlerState) :
    HandlerState × Option PyErr :=
  let s := { s with rollbacksSpan := none, currentSpan := s.rootSpan }
  let r := closeStack s.rollbacksStack now s
  ({ r.1.2 with rollbacksStack := r.1.1 }, r.2)

/-- `OLTPRunEventHandler.start_activity`.  `tok` stands for the fresh
`secrets.token_hex(6)` value.  During a continuous hypothesis, an
activity carrying a tolerance is skipped before any allocation. -/
def start_activity (tok : String) (activity : PyDict) (now : Int)
    (s : HandlerState) : HandlerState × PyDict :=
  let parent := s.currentSpan
  let skip :=
    match s.continuousSpan with
    | some _ => aHas activity "tolerance"
    | none => false
  if skip then (s, activity)
  else
    let a := allocSpan "activity" parent now s
    let sid := a.1
    let s := setAttr sid "chaostoolkit.activity.name"
      (.py (dGet activity "name")) a.2
    let s := setAttr sid "chaostoolkit.activity.background"
      (.py (dGetD activity "background" (.vbool false))) s
    let activity := aUpd activity "_id" (.vstr tok)
    ({ s with activityStacks := aUpd s.activityStacks tok sid,
              activitySpans := aUpd s.activitySpans tok sid },
     activity)

/-- `OLTPRunEventHandler.activity_completed`. -/
def activity_completed (activity : PyDict) (runState : PyDict) (now : Int)
    (s : HandlerState) : (HandlerState × PyDict) × Option PyErr :=
  match aGet activity "_id" with
  | none => ((s, activity), none)
  | some tokv =>
    let activity := aDel activity "_id"
    if ¬ pyTruthy tokv then ((s, activity), none)
    else
      match tokv with
      | .vstr tok =>
        match aGet s.activitySpans tok with
        | none => ((s, activity), some .keyError)
        | some sid =>
          let s := { s with activitySpans := aDel s.activitySpans tok }
          let s := setAttr sid "chaostoolkit.activity.output"
            (.jsonOf (dGet runState "output")) s
          let s := setAttr sid "chaostoolkit.activity.status"
            (.py (dGet runState "status")) s
          let x := dGet runState "exception"
          let s :=
            if pyTruthy x then
              setAttr sid "chaostoolkit.activity.error" (.py x) s
            else s
          match aGet s.activityStacks tok with
          | none => ((s, activity), some .keyError)
          | some sid2 =>
            let s := { s with activityStacks := aDel s.activityStacks tok }
            ((endSpanAt sid2 now s, activity), none)
      | .vlist _ => ((s, activity), some .typeError)
      | .vdict _ => ((s, activity), some .typeError)
      | _ => ((s, activity), some .keyError)

/-- The fields of one `%Y-%m-%dT%H:%M:%S.%f` timestamp as tokenized by
`datetime.strptime` from the ISO-8601 string of a probe record. -/
structure TsRec where
  year : Int
  month : Int
  day : Int
  hour : Int
  minute : Int
  second : Int
  micro : Int

/-- Days between 1970-01-01 and the given proleptic-Gregorian civil
date (the standard days-from-civil computation underlying
`datetime.timestamp` for UTC datetimes). -/
def daysFromCivil (y m d : Int) : Int :=
  let y1 := if m ≤ 2 then y - 1 else y
  let era := (if 0 ≤ y1 then y1 else y1 - 399) / 400
  let yoe := y1 - era * 400
  let mp := if 2 < m then m - 3 else m + 9
  let doy := (153 * mp + 2) / 5 + d - 1
  let doe := yoe * 365 + yoe / 4 - yoe / 100 + doy
  era * 146097 + doe - 719468

/-- `int(datetime.strptime(ts, fmt).replace(tzinfo=utc).timestamp() * 1e9)`:
nanoseconds since the epoch of a parsed timestamp (exact arithmetic). -/
def parseTs (t : TsRec) : Int :=
  ((daysFromCivil t.year t.month t.day) * 86400
    + t.hour * 3600 + t.minute * 60 + t.second) * 1000000000
  + t.micro * 1000

/-- One element of `state["probes"]` in a continuous-hypothesis
iteration: the parsed fields of its `start` and `end` ISO strings plus
the remaining probe-record entries. -/
structure ProbeRec where
  start : TsRec
  stop : TsRec
  data : PyDict

/-- The body of the per-probe loop of `continuous_hypothesis_iteration`:
open a child span at the parsed probe start time, attribute it, and end
it at the parsed probe end time. -/
def runProbe (pid : Nat) (p : ProbeRec) (s : HandlerState) :
    HandlerState × Option PyErr :=
  let a := allocSpan "activity" (some pid) (parseTs p.start) s
  let cid := a.1
  let s := a.2
  match aGet p.data "activity" with
  | some (.vdict ad) =>
    match aGet ad "name" with
    | some nm =>
      let s := setAttr cid "chaostoolkit.activity.name" (.py nm) s
      let s := setAttr cid "chaostoolkit.activity.background"
        (.py (dGetD ad "background" (.vbool false))) s
      let s := setAttr cid "chaostoolkit.activity.output"
        (.jsonOf (dGet p.data "output")) s
      let s := setAttr cid "chaostoolkit.activity.status"
        (.py (dGet p.data "status")) s
      let x := dGet p.data "exception"
      let s :=
        if pyTruthy x then
          setAttr cid "chaostoolkit.activity.error" (.py x) s
        else s
      (endSpanAt cid (parseTs p.stop) s, none)
    | none => (s, some .keyError)
  | some _ => (s, some .typeError)
  | none => (s, some .keyError)

/-- The probe loop, aborting on the first error as the Python `for`
would. -/
def runProbes (pid : Nat) (ps : List ProbeRec) (s : HandlerState) :
    HandlerState × Option PyErr :=
  match ps with
  | [] => (s, none)
  | p :: rest =>
    let r := runProbe pid p s
    match r.2 with
    | some e => (r.1, some e)
    | none => runProbes pid rest r.1

/-- `OLTPRunEventHandler.continuous_hypothesis_iteration`, taking the
fields it reads from `state`: the probe list (with tokenized
timestamps) and `state.get("steady_state_met")`.  The parent span uses
the first probe timestamps; it is ended after the loop, at the parsed
end time, never at `now`. -/
def continuous_hypothesis_iteration (iterIdx : Int)
    (probes : List ProbeRec) (met : PyVal) (now : Int)
    (s : HandlerState) : HandlerState × Option PyErr :=
  match probes with
  | [] => (s, some .indexError)
  | first :: _ =>
    let startTs := parseTs first.start
    let endTs := parseTs first.stop
    let a := allocSpan "hypothesis" s.continuousSpan startTs s
    let pid := a.1
    let s := setAttr pid "chaostoolkit.hypothesis.phase"
      (.py (.vstr "continuous")) a.2
    let s := setAttr pid "chaostoolkit.hypothesis.iteration"
      (.py (.vint iterIdx)) s
    let s := setAttr pid "chaostoolkit.hypothesis.met" (.py met) s
    let r := runProbes pid probes s
    match r.2 with
    | some e => (r.1, some e)
    | none => (endSpanAt pid endTs r.1, none)

/-- All span ids in the state are below the allocation counter. -/
def FreshBound (s : HandlerState) : Prop :=
  ∀ e ∈ s.spans, e.1 < s.nextId

end Oltp

namespace Ctl

/-- A value recorded by `Span.log_kv`: either the Python value itself,
or its `json.dumps` serialization (kept symbolic) when `_log_kv`
degrades non-primitive payloads for the opentelemetry shim. -/
inductive LogVal where
  | raw (v : PyVal)
  | json (v : PyVal)

/-- One opentracing span: creation data, tags, log batches, and the
number of `finish()` calls it has received. -/
structure OTSpanData where
  name : PyVal
  parent : Option Nat
  tags : List (String × PyVal)
  logs : List (List (String × LogVal))
  finishCount : Nat

/-- One scope of the ThreadLocal scope manager: its span, the scope to
restore as active on close, and the `finish_on_close` flag. -/
structure ScopeRec where
  spanId : Nat
  toRestore : Option Nat
  finishOnClose : Bool

/-- The tracer-side state the control hooks act on: spans, scopes, the
active scope of the scope manager, and whether the tracer is the
opentelemetry `TracerShim` (which drives `_log_kv` serialization). -/
structure TracerState where
  otSpans : List (Nat × OTSpanData)
  nextSpan : Nat
  scopes : List (Nat × ScopeRec)
  nextScope : Nat
  active : Option Nat
  isShim : Bool

/-- A tracer with nothing recorded and no active scope. -/
def initTracer (shim : Bool) : TracerState :=
  { otSpans := [], nextSpan := 0, scopes := [], nextScope := 0,
    active := none, isShim := shim }

/-- `tracer.scope_manager.active` resolved to its record. -/
def activeScope (s : TracerState) : Option (Nat × ScopeRec) :=
  match s.active with
  | none => none
  | some scid => (aGet s.scopes scid).map (fun sc => (scid, sc))

/-- `tracer.start_active_span(name, child_of, finish_on_close)`:
allocate a span and a scope, remember the previously active scope in
the new scope, and make the new scope active.  Returns the scope id and
the span id. -/
def startActiveSpan (name : PyVal) (childOf : Option Nat)
    (finishOnClose : Bool) (s : TracerState) :
    (Nat × Nat) × TracerState :=
  let spid := s.nextSpan
  let scid := s.nextScope
  ((scid, spid),
   { s with
      otSpans := s.otSpans ++
        [(spid, { name := name, parent := childOf, tags := [],
                  logs := [], finishCount := 0 })],
      nextSpan := spid + 1,
      scopes := s.scopes ++
        [(scid, { spanId := spid, toRestore := s.active,
                  finishOnClose := finishOnClose })],
      nextScope := scid + 1,
      active := some scid })

/-- `span.set_tag(key, value)`. -/
def setTag (spid : Nat) (k : String) (v : PyVal) (s : TracerState) :
    TracerState :=
  { s with otSpans :=
      updKeyed spid (fun d => { d with tags := aUpd d.tags k v }) s.otSpans }

/-- `span.finish()`: counted per span so double-finishing is visible. -/
def spanFinish (spid : Nat) (s : TracerState) : TracerState :=
  { s with otSpans :=
      (updKeyed spid (fun d => { d with finishCount := d.finishCount + 1 })
        s.otSpans) }

/-- `scope.close()` of the ThreadLocal scope manager: a no-op unless
the scope is the active one; otherwise finish the span (when
`finish_on_close`) and restore the previously active scope. -/
def scopeClose (scid : Nat) (s : TracerState) : TracerState :=
  match aGet s.scopes scid with
  | none => s
  | some sc =>
    if s.active = some scid then
      let s := if sc.finishOnClose then spanFinish sc.spanId s else s
      { s with active := sc.toRestore }
    else s

/-- Primitive datatypes accepted by opentelemetry span logs
(`isinstance(v, (bool, str, bytes, int, float))`). -/
def isPrim : PyVal → Bool
  | .vbool _ => true
  | .vstr _ => true
  | .vint _ => true
  | _ => false

/-- The value sanitization of `_log_kv`: raw payloads for a plain
opentracing tracer, json-serialized non-primitive values for the
opentelemetry shim. -/
def logKvProcess (shim : Bool) (kv : List (String × PyVal)) :
    List (String × LogVal) :=
  if shim then
    kv.map (fun e => (e.1, if isPrim e.2 then .raw e.2 else .json e.2))
  else
    kv.map (fun e => (e.1, .raw e.2))

/-- `_log_kv(key_values, tracer, span)`: skip empty payloads, else
record one sanitized log batch on the span. -/
def logKv (kv : List (String × PyVal)) (spid : Nat) (s : TracerState) :
    TracerState :=
  if kv.isEmpty then s
  else
    { s with otSpans :=
        (updKeyed spid
          (fun d => { d with logs := d.logs ++ [logKvProcess s.isShim kv] })
          s.otSpans) }

/-- `before_experiment_control` (without free-form kwargs).  The parent
is guarded here: `scope.span if scope else None`. -/
def before_experiment_control (ctx : PyDict) (s : TracerState) :
    TracerState × Option PyErr :=
  let parent := (activeScope s).map (fun p => p.2.spanId)
  let r := startActiveSpan (dGet ctx "title") parent true s
  let spid := r.1.2
  let s := setTag spid "type" (.vstr "experiment") r.2
  let afterTags : TracerState → TracerState × Option PyErr := fun s =>
    let contribs := dGet ctx "contributions"
    if pyTruthy contribs then
      match contribs with
      | .vdict cd => (cd.foldl (fun st e => setTag spid e.1 e.2 st) s, none)
      | _ => (s, some .typeError)
    else (s, none)
  let tagsv := dGet ctx "tags"
  if pyTruthy tagsv then
    match tagsv with
    | .vlist tl =>
      let joined := tl.foldr
        (fun v acc =>
          match v, acc with
          | .vstr sv, some rest => some (sv :: rest)
          | _, _ => none)
        (some [])
      match joined with
      | some parts => afterTags (setTag spid "target"
          (.vstr (String.intercalate ", " parts)) s)
      | none => (s, some .typeError)
    | _ => (s, some .typeError)
  else afterTags s

/-- `after_experiment_control`: `scope.span` is dereferenced before the
guarded block, so a missing active scope raises `AttributeError`; the
`finally` close never runs in that case. -/
def after_experiment_control (stateD : PyDict) (s : TracerState) :
    TracerState × Option PyErr :=
  match activeScope s with
  | none => (s, some .attributeError)
  | some (scid, sc) =>
    let s := setTag sc.spanId "status" (dGet stateD "status") s
    (scopeClose scid s, none)

/-- `before_method_control` (without free-form kwargs): `scope.span` is
dereferenced unguarded. -/
def before_method_control (s : TracerState) : TracerState × Option PyErr :=
  match activeScope s with
  | none => (s, some .attributeError)
  | some (_, sc) =>
    let r := startActiveSpan (.vstr "Method") (some sc.spanId) true s
    (setTag r.1.2 "type" (.vstr "method") r.2, none)

/-- `after_method_control`: closes whatever scope is active, if any. -/
def after_method_control (s : TracerState) : TracerState :=
  match s.active with
  | none => s
  | some scid => scopeClose scid s

/-- `after_hypothesis_control`: tag the deviation flag, and on a
deviation with recorded probes log the data of the last probe of the
list; the scope is closed on every exit path (`finally`), errors raised
inside the `try` body still escape afterwards. -/
def after_hypothesis_control (stateD : PyDict) (s : TracerState) :
    TracerState × Option PyErr :=
  match activeScope s with
  | none => (s, some .attributeError)
  | some (scid, sc) =>
    let spid := sc.spanId
    let deviated := ¬ pyTruthy (dGet stateD "steady_state_met")
    let s := setTag spid "deviated" (.vbool deviated) s
    let body : TracerState × Option PyErr :=
      if deviated && aHas stateD "probes" then
        match dGet stateD "probes" with
        | .vlist ps =>
          match ps.getLast? with
          | none => (s, some .indexError)
          | some dp =>
            let s := setTag spid "error" (.vbool true) s
            match dp with
            | .vdict dpd =>
              match aGet dpd "activity" with
              | some (.vdict ad) =>
                match aGet ad "name", aGet ad "tolerance",
                      aGet dpd "output" with
                | some nm, some tol, some outv =>
                  (logKv [("probe", nm), ("expected", tol),
                          ("computed", outv)] spid s, none)
                | _, _, _ => (s, some .keyError)
              | some _ => (s, some .typeError)
              | none => (s, some .keyError)
            | _ => (s, some .typeError)
        | _ => (s, some .typeError)
      else (s, none)
    (scopeClose scid body.1, body.2)

/-- `before_activity_control` (without free-form kwargs).  `inj` is the
list of propagation header entries the configured tracer writes into
the carrier on `tracer.inject`; the carrier is updated in dict order.
The functional result returns the updated activity record in place of
the Python in-place mutation of `provider["headers"]`. -/
def before_activity_control (activity : PyDict)
    (inj : List (String × String)) (s : TracerState) :
    (TracerState × PyDict) × Option PyErr :=
  match activeScope s with
  | none => ((s, activity), some .attributeError)
  | some (_, sc) =>
    let r := startActiveSpan (dGet activity "name") (some sc.spanId) true s
    let spid := r.1.2
    let s := r.2
    let s := setTag spid "type" (.vstr "activity") s
    let s := setTag spid "activity" (dGet activity "type") s
    match aGet activity "provider" with
    | none => ((s, activity), some .keyError)
    | some pv =>
      match pv with
      | .vdict pd =>
        let s := logKv pd spid s
        match aGet pd "type" with
        | none => ((s, activity), some .keyError)
        | some tyv =>
          if pyEqStr tyv "http" then
            match dGetD pd "headers" (.vdict []) with
            | .vdict hd =>
              match dGetD pd "method" (.vstr "GET") with
              | .vstr m =>
                let s := setTag spid "http.method" (.vstr (pyUpper m)) s
                match aGet pd "url" with
                | none => ((s, activity), some .keyError)
                | some u =>
                  let s := setTag spid "http.url" u s
                  let s := setTag spid "span.kind" (.vstr "client") s
                  let hd2 := inj.foldl
                    (fun d e => aUpd d e.1 (PyVal.vstr e.2)) hd
                  let pd2 := aUpd pd "headers" (.vdict hd2)
                  let activity2 := aUpd activity "provider" (.vdict pd2)
                  ((s, activity2), none)
              | _ => ((s, activity), some .attributeError)
            | _ => ((s, activity), some .typeError)
          else ((s, activity), none)
      | _ => ((s, activity), some .typeError)

/-- All span ids of the tracer are below the span counter. -/
def FreshSpans (s : TracerState) : Prop :=
  ∀ e ∈ s.otSpans, e.1 < s.nextSpan

end Ctl

/-!
Derived span shapes: the concrete `SpanData` values produced by the
handler start events, used to state closed-form evaluation lemmas.
-/

namespace Oltp

/-- The root span as built by `started`. -/
def startedSpan (experiment : PyDict) (platformFull : String)
    (now : Int) : SpanData :=
  { name := "experiment", parent := none,
    attrs := [("chaostoolkit.experiment.title", .py (dGet experiment "title")),
              ("chaostoolkit.platform.full", .py (.vstr platformFull))],
    startTime := now, endTime := none }

/-- A hypothesis phase span as built by the hypothesis start events. -/
def phaseSpan (phase : String) (parent : Option Nat) (now : Int) :
    SpanData :=
  { name := "hypothesis", parent := parent,
    attrs := [("chaostoolkit.hypothesis.phase", .py (.vstr phase))],
    startTime := now, endTime := none }

/-- An attribute-free span as built by `start_method` / `start_rollbacks`. -/
def plainSpan (name : String) (parent : Option Nat) (now : Int) :
    SpanData :=
  { name := name, parent := parent, attrs := [],
    startTime := now, endTime := none }

/-- An activity span as built by `start_activity`. -/
def activitySpan (activity : PyDict) (parent : Option Nat) (now : Int) :
    SpanData :=
  { name := "activity", parent := parent,
    attrs := [("chaostoolkit.activity.name", .py (dGet activity "name")),
              ("chaostoolkit.activity.background",
               .py (dGetD activity "background" (.vbool false)))],
    startTime := now, endTime := none }

/-- Whether a probe record carries the fields the iteration loop
dereferences without a fallback. -/
def probeOk (p : ProbeRec) : Bool :=
  match aGet p.data "activity" with
  | some (.vdict ad) => aHas ad "name"
  | _ => false

/-- The activity record of a well-formed probe. -/
def probeActivity (p : ProbeRec) : PyDict :=
  match aGet p.data "activity" with
  | some (.vdict ad) => ad
  | _ => []

/-- The child span a well-formed probe produces inside
`continuous_hypothesis_iteration`: opened at the parsed probe start
time and ended at the parsed probe end time. -/
def probeSpanOf (pid : Nat) (p : ProbeRec) : SpanData :=
  let ad := probeActivity p
  let base :=
    [("chaostoolkit.activity.name", AttrVal.py (dGet ad "name")),
     ("chaostoolkit.activity.background",
      AttrVal.py (dGetD ad "background" (.vbool false))),
     ("chaostoolkit.activity.output", AttrVal.jsonOf (dGet p.data "output")),
     ("chaostoolkit.activity.status", AttrVal.py (dGet p.data "status"))]
  { name := "activity", parent := some pid,
    attrs :=
      (if pyTruthy (dGet p.data "exception") then
        base ++ [("chaostoolkit.activity.error",
                  AttrVal.py (dGet p.data "exception"))]
      else base),
    startTime := parseTs p.start, endTime := some (parseTs p.stop) }

/-- The iteration parent span: opened and ended at the parsed
timestamps of the first probe. -/
def iterParentSpan (iterIdx : Int) (met : PyVal) (cont : Option Nat)
    (first : ProbeRec) : SpanData :=
  { name := "hypothesis", parent := cont,
    attrs := [("chaostoolkit.hypothesis.phase", .py (.vstr "continuous")),
              ("chaostoolkit.hypothesis.iteration", .py (.vint iterIdx)),
              ("chaostoolkit.hypothesis.met", .py met)],
    startTime := parseTs first.start,
    endTime := some (parseTs first.stop) }

/-- The child spans of an iteration, keyed from `k` upwards. -/
def childSpans (pid : Nat) (k : Nat) : List ProbeRec → List (Nat × SpanData)
  | [] => []
  | p :: ps => (k, probeSpanOf pid p) :: childSpans pid (k + 1) ps

end Oltp


/-!
Concrete fixtures used by the witness theorems.
-/

namespace Oltp

/-- A concrete well-formed probe record for witnesses. -/
def wProbe : ProbeRec :=
  { start := ⟨2024, 1, 1, 0, 0, 0, 0⟩,
    stop := ⟨2024, 1, 1, 0, 0, 1, 500000⟩,
    data := [("activity", .vdict [("name", .vstr "p1")]),
             ("output", .vint 7), ("status", .vstr "succeeded")] }

end Oltp

namespace Ctl

/-- A concrete tracer with one open experiment scope for witnesses. -/
def wTracer : TracerState :=
  { otSpans := [(0, { name := .vstr "exp", parent := none, tags := [],
                      logs := [], finishCount := 0 })],
    nextSpan := 1,
    scopes := [(0, { spanId := 0, toRestore := none,
                     finishOnClose := true })],
    nextScope := 1, active := some 0, isShim := false }

/-- A concrete http provider record for witnesses. -/
def wProvider : PyDict :=
  [("type", .vstr "http"), ("url", .vstr "https://x"),
   ("method", .vstr "post")]

/-- A concrete activity record with an http provider for witnesses. -/
def wHttpActivity : PyDict :=
  [("name", .vstr "a1"), ("type", .vstr "probe"),
   ("provider", .vdict wProvider)]

/-- A concrete deviated hypothesis state for witnesses: steady state
not met, one recorded probe with tolerance 5 and output 7. -/
def wDevState : PyDict :=
  [("steady_state_met", .vbool false),
   ("probes", .vlist [.vdict
     [("activity", .vdict [("name", .vstr "p1"), ("tolerance", .vint 5)]),
      ("output", .vint 7)]])]

end Ctl

/-!
Generic association-list lemmas.
-/

theorem aGet_cons {κ α : Type} [DecidableEq κ] (k1 : κ) (v1 : α)
    (rest : List (κ × α)) (k : κ) :
    aGet ((k1, v1) :: rest) k = if k1 = k then some v1 else aGet rest k := rfl

theorem updKeyed_nil {κ α : Type} [DecidableEq κ] (k : κ) (f : α → α) :
    updKeyed k f ([] : List (κ × α)) = [] := rfl

theorem updKeyed_cons {κ α : Type} [DecidableEq κ] (k1 : κ) (v1 : α)
    (rest : List (κ × α)) (k : κ) (f : α → α) :
    updKeyed k f ((k1, v1) :: rest) =
      (if k1 = k then (k1, f v1) else (k1, v1)) :: updKeyed k f rest := rfl

theorem aUpd_cons {κ α : Type} [DecidableEq κ] (k1 : κ) (v1 : α)
    (rest : List (κ × α)) (k : κ) (v : α) :
    aUpd ((k1, v1) :: rest) k v =
      if k1 = k then (k1, v) :: rest else (k1, v1) :: aUpd rest k v := rfl

theorem aDel_cons {κ α : Type} [DecidableEq κ] (k1 : κ) (v1 : α)
    (rest : List (κ × α)) (k : κ) :
    aDel ((k1, v1) :: rest) k =
      if k1 = k then rest else (k1, v1) :: aDel rest k := rfl

theorem aGet_updKeyed_self {κ α : Type} [DecidableEq κ] (k : κ)
    (f : α → α) (l : List (κ × α)) :
    aGet (updKeyed k f l) k = (aGet l k).map f := by
  induction l with
  | nil => rfl
  | cons e rest ih =>
    obtain ⟨k1, v1⟩ := e
    rw [updKeyed_cons]
    by_cases h : k1 = k
    · rw [if_pos h, aGet_cons, if_pos h, aGet_cons, if_pos h]
      rfl
    · rw [if_neg h, aGet_cons, if_neg h, aGet_cons, if_neg h]
      exact ih

theorem aGet_updKeyed_ne {κ α : Type} [DecidableEq κ] {k k' : κ}
    (f : α → α) (l : List (κ × α)) (h : k' ≠ k) :
    aGet (updKeyed k f l) k' = aGet l k' := by
  induction l with
  | nil => rfl
  | cons e rest ih =>
    obtain ⟨k1, v1⟩ := e
    rw [updKeyed_cons]
    by_cases h1 : k1 = k
    · have h2 : k1 ≠ k' := fun hh => h (hh ▸ h1)
      rw [if_pos h1, aGet_cons, if_neg h2, aGet_cons, if_neg h2]
      exact ih
    · by_cases h2 : k1 = k'
      · rw [if_neg h1, aGet_cons, if_pos h2, aGet_cons, if_pos h2]
      · rw [if_neg h1, aGet_cons, if_neg h2, aGet_cons, if_neg h2]
        exact ih

theorem updKeyed_append_fresh {κ α : Type} [DecidableEq κ] {k : κ}
    (f : α → α) (l : List (κ × α)) (d : α)
    (h : ∀ e ∈ l, e.1 ≠ k) :
    updKeyed k f (l ++ [(k, d)]) = l ++ [(k, f d)] := by
  induction l with
  | nil => simp [updKeyed]
  | cons e rest ih =>
    obtain ⟨k1, v1⟩ := e
    have he : k1 ≠ k := h (k1, v1) (by simp)
    have hrest : ∀ e ∈ rest, e.1 ≠ k := fun e hm => h e (by simp [hm])
    rw [List.cons_append, updKeyed_cons, if_neg he, ih hrest, List.cons_append]

theorem updKeyed_length {κ α : Type} [DecidableEq κ] (k : κ)
    (f : α → α) (l : List (κ × α)) :
    (updKeyed k f l).length = l.length := by
  simp [updKeyed]

theorem updKeyed_keys {κ α : Type} [DecidableEq κ] (k : κ)
    (f : α → α) (l : List (κ × α)) :
    (updKeyed k f l).map Prod.fst = l.map Prod.fst := by
  induction l with
  | nil => rfl
  | cons e rest ih =>
    obtain ⟨k1, v1⟩ := e
    rw [updKeyed_cons]
    by_cases h : k1 = k
    · rw [if_pos h, List.map_cons, List.map_cons, ih]
    · rw [if_neg h, List.map_cons, List.map_cons, ih]

theorem aGet_append_fresh {κ α : Type} [DecidableEq κ] {k : κ}
    (l : List (κ × α)) (d : α) (h : ∀ e ∈ l, e.1 ≠ k) :
    aGet (l ++ [(k, d)]) k = some d := by
  induction l with
  | nil => simp [aGet]
  | cons e rest ih =>
    obtain ⟨k1, v1⟩ := e
    have he : k1 ≠ k := h (k1, v1) (by simp)
    have hrest : ∀ e ∈ rest, e.1 ≠ k := fun e hm => h e (by simp [hm])
    rw [List.cons_append, aGet_cons, if_neg he]
    exact ih hrest

theorem aGet_append_ne {κ α : Type} [DecidableEq κ] {k k' : κ}
    (l : List (κ × α)) (d : α) (h : k' ≠ k) :
    aGet (l ++ [(k, d)]) k' = aGet l k' := by
  induction l with
  | nil =>
    have : k ≠ k' := fun hh => h hh.symm
    simp [aGet, if_neg this]
  | cons e rest ih =>
    obtain ⟨k1, v1⟩ := e
    by_cases h2 : k1 = k'
    · rw [List.cons_append, aGet_cons, if_pos h2, aGet_cons, if_pos h2]
    · rw [List.cons_append, aGet_cons, if_neg h2, aGet_cons, if_neg h2]
      exact ih

theorem aGet_aUpd_self {κ α : Type} [DecidableEq κ] (l : List (κ × α))
    (k : κ) (v : α) : aGet (aUpd l k v) k = some v := by
  induction l with
  | nil => simp [aGet, aUpd]
  | cons e rest ih =>
    obtain ⟨k1, v1⟩ := e
    rw [aUpd_cons]
    by_cases h : k1 = k
    · rw [if_pos h, aGet_cons, if_pos h]
    · rw [if_neg h, aGet_cons, if_neg h]
      exact ih

theorem aGet_aUpd_ne {κ α : Type} [DecidableEq κ] (l : List (κ × α))
    {k k' : κ} (v : α) (h : k' ≠ k) :
    aGet (aUpd l k v) k' = aGet l k' := by
  induction l with
  | nil =>
    have : k ≠ k' := fun hh => h hh.symm
    simp [aGet, aUpd, if_neg this]
  | cons e rest ih =>
    obtain ⟨k1, v1⟩ := e
    rw [aUpd_cons]
    by_cases h1 : k1 = k
    · have h2 : k1 ≠ k' := fun hh => h (hh ▸ h1)
      rw [if_pos h1, aGet_cons, if_neg h2, aGet_cons, if_neg h2]
    · by_cases h2 : k1 = k'
      · rw [if_neg h1, aGet_cons, if_pos h2, aGet_cons, if_pos h2]
      · rw [if_neg h1, aGet_cons, if_neg h2, aGet_cons, if_neg h2]
        exact ih

theorem aGet_aDel_ne {κ α : Type} [DecidableEq κ] (l : List (κ × α))
    {k k' : κ} (h : k' ≠ k) :
    aGet (aDel l k) k' = aGet l k' := by
  induction l with
  | nil => rfl
  | cons e rest ih =>
    obtain ⟨k1, v1⟩ := e
    rw [aDel_cons]
    by_cases h1 : k1 = k
    · have h2 : k1 ≠ k' := fun hh => h (hh ▸ h1)
      rw [if_pos h1, aGet_cons, if_neg h2]
    · by_cases h2 : k1 = k'
      · rw [if_neg h1, aGet_cons, if_pos h2, aGet_cons, if_pos h2]
      · rw [if_neg h1, aGet_cons, if_neg h2, aGet_cons, if_neg h2]
        exact ih

theorem aGet_isSome_of_mem_keys {κ α : Type} [DecidableEq κ]
    (l : List (κ × α)) (k : κ) (h : k ∈ l.map Prod.fst) :
    (aGet l k).isSome := by
  induction l with
  | nil => simp at h
  | cons e rest ih =>
    obtain ⟨k1, v1⟩ := e
    by_cases h1 : k1 = k
    · rw [aGet_cons, if_pos h1]
      rfl
    · rw [aGet_cons, if_neg h1]
      apply ih
      rcases List.mem_cons.mp h with hh | hh
      · exact absurd hh.symm h1
      · exact hh

theorem mem_keys_of_aGet_isSome {κ α : Type} [DecidableEq κ]
    (l : List (κ × α)) (k : κ) (h : (aGet l k).isSome) :
    k ∈ l.map Prod.fst := by
  induction l with
  | nil => simp [aGet] at h
  | cons e rest ih =>
    obtain ⟨k1, v1⟩ := e
    by_cases h1 : k1 = k
    · simp [h1]
    · rw [aGet_cons, if_neg h1] at h
      simp [ih h]

theorem aGet_aDel_self {κ α : Type} [DecidableEq κ] (l : List (κ × α))
    (k : κ) (h : (l.map Prod.fst).Nodup) :
    aGet (aDel l k) k = none := by
  induction l with
  | nil => rfl
  | cons e rest ih =>
    obtain ⟨k1, v1⟩ := e
    rw [List.map_cons, List.nodup_cons] at h
    rw [aDel_cons]
    by_cases h1 : k1 = k
    · subst h1
      rw [if_pos rfl]
      cases hg : aGet rest k1 with
      | none => rfl
      | some v =>
        exact absurd (mem_keys_of_aGet_isSome rest k1 (by simp [hg])) h.1
    · rw [if_neg h1, aGet_cons, if_neg h1]
      exact ih h.2

theorem aUpd_keys {κ α : Type} [DecidableEq κ] (l : List (κ × α))
    (k : κ) (v : α) :
    (aUpd l k v).map Prod.fst =
      if (aGet l k).isSome then l.map Prod.fst
      else l.map Prod.fst ++ [k] := by
  induction l with
  | nil => simp [aUpd, aGet]
  | cons e rest ih =>
    obtain ⟨k1, v1⟩ := e
    rw [aUpd_cons, aGet_cons]
    by_cases h1 : k1 = k
    · rw [if_pos h1, if_pos h1]
      simp
    · rw [if_neg h1, if_neg h1, List.map_cons, ih]
      by_cases h2 : (aGet rest k).isSome
      · rw [if_pos h2, if_pos h2, List.map_cons]
      · rw [if_neg h2, if_neg h2, List.map_cons, List.cons_append]

theorem aUpd_keys_nodup {κ α : Type} [DecidableEq κ] (l : List (κ × α))
    (k : κ) (v : α) (h : (l.map Prod.fst).Nodup) :
    ((aUpd l k v).map Prod.fst).Nodup := by
  rw [aUpd_keys]
  by_cases h1 : (aGet l k).isSome
  · rw [if_pos h1]
    exact h
  · rw [if_neg h1]
    have hk : k ∉ l.map Prod.fst := fun hm =>
      h1 (aGet_isSome_of_mem_keys l k hm)
    simp [List.nodup_append, h, hk]

/-!
Closed-form evaluation of the handler start events.
-/

namespace Oltp

theorem freshB_ne {s : HandlerState} (h : FreshBound s) :
    ∀ e ∈ s.spans, e.1 ≠ s.nextId :=
  fun e he => Nat.ne_of_lt (h e he)

theorem started_eq (exp : PyDict) (plat : String) (now : Int)
    (s : HandlerState) (hF : FreshBound s) :
    started exp plat now s =
      { s with
          spans := s.spans ++ [(s.nextId, startedSpan exp plat now)],
          nextId := s.nextId + 1,
          rootStack := .pending s.nextId, rootSpan := some s.nextId,
          currentSpan := some s.nextId } := by
  have hne := freshB_ne hF
  simp only [started, allocSpan, setAttr, updateSpan, startedSpan]
  rw [updKeyed_append_fresh _ _ _ hne, updKeyed_append_fresh _ _ _ hne]
  simp [aUpd]

theorem start_hypothesis_before_eq (now : Int) (s : HandlerState)
    (hF : FreshBound s) :
    start_hypothesis_before now s =
      { s with
          spans := s.spans ++
            [(s.nextId, phaseSpan "before" s.rootSpan now)],
          nextId := s.nextId + 1,
          beforeSshStack := .pending s.nextId,
          beforeSshSpan := some s.nextId,
          currentSpan := some s.nextId } := by
  have hne := freshB_ne hF
  simp only [start_hypothesis_before, allocSpan, setAttr, updateSpan,
    phaseSpan]
  rw [updKeyed_append_fresh _ _ _ hne]
  simp [aUpd]

theorem start_hypothesis_after_eq (now : Int) (s : HandlerState)
    (hF : FreshBound s) :
    start_hypothesis_after now s =
      { s with
          spans := s.spans ++
            [(s.nextId, phaseSpan "after" s.rootSpan now)],
          nextId := s.nextId + 1,
          afterSshStack := .pending s.nextId,
          afterSshSpan := some s.nextId,
          currentSpan := some s.nextId } := by
  have hne := freshB_ne hF
  simp only [start_hypothesis_after, allocSpan, setAttr, updateSpan,
    phaseSpan]
  rw [updKeyed_append_fresh _ _ _ hne]
  simp [aUpd]

theorem start_continuous_hypothesis_eq (now : Int) (s : HandlerState)
    (hF : FreshBound s) :
    start_continuous_hypothesis now s =
      { s with
          spans := s.spans ++
            [(s.nextId, phaseSpan "continuous" s.rootSpan now)],
          nextId := s.nextId + 1,
          continuousStack := .pending s.nextId,
          continuousSpan := some s.nextId } := by
  have hne := freshB_ne hF
  simp only [start_continuous_hypothesis, allocSpan, setAttr, updateSpan,
    phaseSpan]
  rw [updKeyed_append_fresh _ _ _ hne]
  simp [aUpd]

theorem start_method_eq (now : Int) (s : HandlerState) :
    start_method now s =
      { s with
          spans := s.spans ++
            [(s.nextId, plainSpan "method" s.rootSpan now)],
          nextId := s.nextId + 1,
          methodStack := .pending s.nextId,
          methodSpan := some s.nextId,
          currentSpan := some s.nextId } := by
  simp [start_method, allocSpan, plainSpan]

theorem start_rollbacks_eq (now : Int) (s : HandlerState) :
    start_rollbacks now s =
      { s with
          spans := s.spans ++
            [(s.nextId, plainSpan "rollbacks" s.rootSpan now)],
          nextId := s.nextId + 1,
          rollbacksStack := .pending s.nextId,
          rollbacksSpan := some s.nextId,
          currentSpan := some s.nextId } := by
  simp [start_rollbacks, allocSpan, plainSpan]

theorem start_activity_eq (tok : String) (activity : PyDict) (now : Int)
    (s : HandlerState) (hF : FreshBound s)
    (hg : s.continuousSpan = none ∨ aHas activity "tolerance" = false) :
    start_activity tok activity now s =
      ({ s with
          spans := s.spans ++
            [(s.nextId, activitySpan activity s.currentSpan now)],
          nextId := s.nextId + 1,
          activityStacks := aUpd s.activityStacks tok s.nextId,
          activitySpans := aUpd s.activitySpans tok s.nextId },
       aUpd activity "_id" (.vstr tok)) := by
  have hne := freshB_ne hF
  have hskip :
      (match s.continuousSpan with
        | some _ => aHas activity "tolerance"
        | none => false) = false := by
    rcases hg with hg | hg
    · rw [hg]
    · cases s.continuousSpan <;> simp [hg]
  simp only [start_activity, hskip, Bool.false_eq_true, if_false,
    allocSpan, setAttr, updateSpan, activitySpan]
  rw [updKeyed_append_fresh _ _ _ hne, updKeyed_append_fresh _ _ _ hne]
  simp [aUpd]

theorem start_activity_skip (tok : String) (activity : PyDict)
    (now : Int) (s : HandlerState) (c : Nat)
    (hc : s.continuousSpan = some c)
    (ht : aHas activity "tolerance" = true) :
    start_activity tok activity now s = (s, activity) := by
  simp [start_activity, hc, ht]

end Oltp

namespace Oltp

theorem pair_experiment (exp j : PyDict) (plat : String) (now now' : Int)
    (s : HandlerState) (hF : FreshBound s) :
    (started exp plat now s).spans.length = s.spans.length + 1 ∧
    aGet (started exp plat now s).spans s.nextId =
      some (startedSpan exp plat now) ∧
    (finish j now' (started exp plat now s)).2 = none ∧
    (finish j now' (started exp plat now s)).1.spans.length =
      s.spans.length + 1 ∧
    (aGet (finish j now' (started exp plat now s)).1.spans
        s.nextId).map SpanData.endTime = some (some now') ∧
    (∀ k, k ≠ s.nextId →
      aGet (finish j now' (started exp plat now s)).1.spans k =
        aGet s.spans k) ∧
    (finish j now' (started exp plat now s)).1.rootSpan = none ∧
    (finish j now' (started exp plat now s)).1.rootStack = .emptied := by
  have hne := freshB_ne hF
  rw [started_eq exp plat now s hF]
  simp only [finish, setAttr, updateSpan, closeStack, endSpanAt]
  rw [updKeyed_append_fresh _ _ _ hne, updKeyed_append_fresh _ _ _ hne,
      updKeyed_append_fresh _ _ _ hne, aGet_append_fresh _ _ hne,
      aGet_append_fresh _ _ hne]
  refine ⟨by simp, rfl, True.intro, by simp, ?_, ?_, True.intro, True.intro⟩
  · simp [startedSpan]
  · intro k hk
    rw [aGet_append_ne _ _ hk]

end Oltp

namespace Oltp

theorem pair_hyp_before (stateD : PyDict) (now now' : Int)
    (s : HandlerState) (hF : FreshBound s) :
    (start_hypothesis_before now s).spans.length = s.spans.length + 1 ∧
    aGet (start_hypothesis_before now s).spans s.nextId =
      some (phaseSpan "before" s.rootSpan now) ∧
    (hypothesis_before_completed stateD now'
        (start_hypothesis_before now s)).2 = none ∧
    (hypothesis_before_completed stateD now'
        (start_hypothesis_before now s)).1.spans.length =
      s.spans.length + 1 ∧
    (aGet (hypothesis_before_completed stateD now'
        (start_hypothesis_before now s)).1.spans s.nextId).map
      SpanData.endTime = some (some now') ∧
    (∀ k, k ≠ s.nextId →
      aGet (hypothesis_before_completed stateD now'
          (start_hypothesis_before now s)).1.spans k = aGet s.spans k) ∧
    (hypothesis_before_completed stateD now'
        (start_hypothesis_before now s)).1.beforeSshSpan = none ∧
    (hypothesis_before_completed stateD now'
        (start_hypothesis_before now s)).1.beforeSshStack = .emptied ∧
    (hypothesis_before_completed stateD now'
        (start_hypothesis_before now s)).1.currentSpan = s.rootSpan := by
  have hne := freshB_ne hF
  rw [start_hypothesis_before_eq now s hF]
  simp only [hypothesis_before_completed, setAttr, updateSpan, closeStack,
    endSpanAt]
  rw [updKeyed_append_fresh _ _ _ hne, updKeyed_append_fresh _ _ _ hne,
      aGet_append_fresh _ _ hne, aGet_append_fresh _ _ hne]
  refine ⟨by simp, rfl, True.intro, by simp, by simp [phaseSpan],
    fun k hk => aGet_append_ne _ _ hk, True.intro, True.intro, True.intro⟩

end Oltp

namespace Oltp

theorem pair_hyp_after (stateD : PyDict) (now now' : Int)
    (s : HandlerState) (hF : FreshBound s) :
    (start_hypothesis_after now s).spans.length = s.spans.length + 1 ∧
    aGet (start_hypothesis_after now s).spans s.nextId =
      some (phaseSpan "after" s.rootSpan now) ∧
    (hypothesis_after_completed stateD now'
        (start_hypothesis_after now s)).2 = none ∧
    (hypothesis_after_completed stateD now'
        (start_hypothesis_after now s)).1.spans.length =
      s.spans.length + 1 ∧
    (aGet (hypothesis_after_completed stateD now'
        (start_hypothesis_after now s)).1.spans s.nextId).map
      SpanData.endTime = some (some now') ∧
    (∀ k, k ≠ s.nextId →
      aGet (hypothesis_after_completed stateD now'
          (start_hypothesis_after now s)).1.spans k = aGet s.spans k) ∧
    (hypothesis_after_completed stateD now'
        (start_hypothesis_after now s)).1.afterSshSpan = none ∧
    (hypothesis_after_completed stateD now'
        (start_hypothesis_after now s)).1.afterSshStack = .emptied ∧
    (hypothesis_after_completed stateD now'
        (start_hypothesis_after now s)).1.currentSpan = s.rootSpan := by
  have hne := freshB_ne hF
  rw [start_hypothesis_after_eq now s hF]
  simp only [hypothesis_after_completed, setAttr, updateSpan, closeStack,
    endSpanAt]
  rw [updKeyed_append_fresh _ _ _ hne, updKeyed_append_fresh _ _ _ hne,
      aGet_append_fresh _ _ hne, aGet_append_fresh _ _ hne]
  refine ⟨by simp, rfl, True.intro, by simp, by simp [phaseSpan],
    fun k hk => aGet_append_ne _ _ hk, True.intro, True.intro, True.intro⟩

theorem pair_continuous (now now' : Int)
    (s : HandlerState) (hF : FreshBound s) :
    (start_continuous_hypothesis now s).spans.length =
      s.spans.length + 1 ∧
    aGet (start_continuous_hypothesis now s).spans s.nextId =
      some (phaseSpan "continuous" s.rootSpan now) ∧
    (continuous_hypothesis_completed now'
        (start_continuous_hypothesis now s)).2 = none ∧
    (continuous_hypothesis_completed now'
        (start_continuous_hypothesis now s)).1.spans.length =
      s.spans.length + 1 ∧
    (aGet (continuous_hypothesis_completed now'
        (start_continuous_hypothesis now s)).1.spans s.nextId).map
      SpanData.endTime = some (some now') ∧
    (∀ k, k ≠ s.nextId →
      aGet (continuous_hypothesis_completed now'
          (start_continuous_hypothesis now s)).1.spans k =
        aGet s.spans k) ∧
    (continuous_hypothesis_completed now'
        (start_continuous_hypothesis now s)).1.continuousSpan = none ∧
    (continuous_hypothesis_completed now'
        (start_continuous_hypothesis now s)).1.continuousStack =
      .emptied := by
  have hne := freshB_ne hF
  rw [start_continuous_hypothesis_eq now s hF]
  simp only [continuous_hypothesis_completed, closeStack, endSpanAt,
    updateSpan]
  rw [updKeyed_append_fresh _ _ _ hne, aGet_append_fresh _ _ hne,
      aGet_append_fresh _ _ hne]
  refine ⟨by simp, rfl, True.intro, by simp, by simp [phaseSpan],
    fun k hk => aGet_append_ne _ _ hk, True.intro, True.intro⟩

theorem pair_method (now now' : Int) (s : HandlerState)
    (hF : FreshBound s) :
    (start_method now s).spans.length = s.spans.length + 1 ∧
    aGet (start_method now s).spans s.nextId =
      some (plainSpan "method" s.rootSpan now) ∧
    (method_completed now' (start_method now s)).2 = none ∧
    (method_completed now' (start_method now s)).1.spans.length =
      s.spans.length + 1 ∧
    (aGet (method_completed now' (start_method now s)).1.spans
        s.nextId).map SpanData.endTime = some (some now') ∧
    (∀ k, k ≠ s.nextId →
      aGet (method_completed now' (start_method now s)).1.spans k =
        aGet s.spans k) ∧
    (method_completed now' (start_method now s)).1.methodSpan = none ∧
    (method_completed now' (start_method now s)).1.methodStack =
      .emptied ∧
    (method_completed now' (start_method now s)).1.currentSpan =
      s.rootSpan := by
  have hne := freshB_ne hF
  rw [start_method_eq now s]
  simp only [method_completed, closeStack, endSpanAt, updateSpan]
  rw [updKeyed_append_fresh _ _ _ hne, aGet_append_fresh _ _ hne,
      aGet_append_fresh _ _ hne]
  refine ⟨by simp, rfl, True.intro, by simp, by simp [plainSpan],
    fun k hk => aGet_append_ne _ _ hk, True.intro, True.intro, True.intro⟩

theorem pair_rollbacks (now now' : Int) (s : HandlerState)
    (hF : FreshBound s) :
    (start_rollbacks now s).spans.length = s.spans.length + 1 ∧
    aGet (start_rollbacks now s).spans s.nextId =
      some (plainSpan "rollbacks" s.rootSpan now) ∧
    (rollbacks_completed now' (start_rollbacks now s)).2 = none ∧
    (rollbacks_completed now' (start_rollbacks now s)).1.spans.length =
      s.spans.length + 1 ∧
    (aGet (rollbacks_completed now' (start_rollbacks now s)).1.spans
        s.nextId).map SpanData.endTime = some (some now') ∧
    (∀ k, k ≠ s.nextId →
      aGet (rollbacks_completed now' (start_rollbacks now s)).1.spans k =
        aGet s.spans k) ∧
    (rollbacks_completed now' (start_rollbacks now s)).1.rollbacksSpan =
      none ∧
    (rollbacks_completed now' (start_rollbacks now s)).1.rollbacksStack =
      .emptied ∧
    (rollbacks_completed now' (start_rollbacks now s)).1.currentSpan =
      s.rootSpan := by
  have hne := freshB_ne hF
  rw [start_rollbacks_eq now s]
  simp only [rollbacks_completed, closeStack, endSpanAt, updateSpan]
  rw [updKeyed_append_fresh _ _ _ hne, aGet_append_fresh _ _ hne,
      aGet_append_fresh _ _ hne]
  refine ⟨by simp, rfl, True.intro, by simp, by simp [plainSpan],
    fun k hk => aGet_append_ne _ _ hk, True.intro, True.intro, True.intro⟩

end Oltp

namespace Oltp

theorem pair_activity (activity runState : PyDict) (tok : String)
    (now now' : Int) (s : HandlerState) (hF : FreshBound s)
    (hg : s.continuousSpan = none ∨ aHas activity "tolerance" = false)
    (htok : tok ≠ "")
    (hAct : (activity.map Prod.fst).Nodup)
    (hStacks : (s.activityStacks.map Prod.fst).Nodup)
    (hSpans : (s.activitySpans.map Prod.fst).Nodup) :
    (start_activity tok activity now s).1.spans.length =
      s.spans.length + 1 ∧
    aGet (start_activity tok activity now s).1.spans s.nextId =
      some (activitySpan activity s.currentSpan now) ∧
    aGet (start_activity tok activity now s).2 "_id" =
      some (.vstr tok) ∧
    (activity_completed (start_activity tok activity now s).2 runState
        now' (start_activity tok activity now s).1).2 = none ∧
    (activity_completed (start_activity tok activity now s).2 runState
        now' (start_activity tok activity now s).1).1.1.spans.length =
      s.spans.length + 1 ∧
    (aGet (activity_completed (start_activity tok activity now s).2
        runState now'
        (start_activity tok activity now s).1).1.1.spans s.nextId).map
      SpanData.endTime = some (some now') ∧
    (∀ k, k ≠ s.nextId →
      aGet (activity_completed (start_activity tok activity now s).2
          runState now'
          (start_activity tok activity now s).1).1.1.spans k =
        aGet s.spans k) ∧
    aGet (activity_completed (start_activity tok activity now s).2
        runState now'
        (start_activity tok activity now s).1).1.1.activitySpans tok =
      none ∧
    aGet (activity_completed (start_activity tok activity now s).2
        runState now'
        (start_activity tok activity now s).1).1.1.activityStacks tok =
      none ∧
    aGet (activity_completed (start_activity tok activity now s).2
        runState now'
        (start_activity tok activity now s).1).1.2 "_id" = none := by
  have hne := freshB_ne hF
  have hupd : ∀ (f : SpanData → SpanData) (d : SpanData),
      updKeyed s.nextId f (s.spans ++ [(s.nextId, d)]) =
        s.spans ++ [(s.nextId, f d)] :=
    fun f d => updKeyed_append_fresh f s.spans d hne
  have hget : ∀ d : SpanData,
      aGet (s.spans ++ [(s.nextId, d)]) s.nextId = some d :=
    fun d => aGet_append_fresh s.spans d hne
  have htokb : pyTruthy (.vstr tok) = true := by simp [pyTruthy, htok]
  have hdelSp : aGet (aDel (aUpd s.activitySpans tok s.nextId) tok) tok =
      none := aGet_aDel_self _ _ (aUpd_keys_nodup _ _ _ hSpans)
  have hdelSt : aGet (aDel (aUpd s.activityStacks tok s.nextId) tok) tok =
      none := aGet_aDel_self _ _ (aUpd_keys_nodup _ _ _ hStacks)
  have hdelAct :
      aGet (aDel (aUpd activity "_id" (.vstr tok)) "_id") "_id" = none :=
    aGet_aDel_self _ _ (aUpd_keys_nodup _ _ _ hAct)
  rw [start_activity_eq tok activity now s hF hg]
  by_cases hx : pyTruthy (dGet runState "exception") = true
  · simp only [activity_completed, aGet_aUpd_self, htokb, hx, setAttr,
      updateSpan, endSpanAt, if_true, not_true_eq_false, Bool.false_eq_true,
      if_false, hupd, hget, hdelSp, hdelSt, hdelAct]
    refine ⟨by simp, True.intro, True.intro, True.intro, by simp, ?_,
      fun k hk => aGet_append_ne _ _ hk, True.intro, True.intro,
      True.intro⟩
    simp [activitySpan]
  · simp only [activity_completed, aGet_aUpd_self, htokb, hx, setAttr,
      updateSpan, endSpanAt, if_true, not_true_eq_false, Bool.false_eq_true,
      if_false, hupd, hget, hdelSp, hdelSt, hdelAct]
    refine ⟨by simp, True.intro, True.intro, True.intro, by simp, ?_,
      fun k hk => aGet_append_ne _ _ hk, True.intro, True.intro,
      True.intro⟩
    simp [activitySpan]

end Oltp
namespace Oltp

/-- C1: for every well-formed before/after lifecycle call pair of the
event-registry handler (experiment, hypothesis before/after/continuous,
method, rollbacks, activity), exactly one span is opened by the start
call and exactly one span is closed by the completion call, no other
span is touched, and after the pair no handle remains registered for
the phase slot or activity id: the slot span field is cleared, the
ExitStack is emptied, and for activities both the registry entry and
the stack entry are removed together with the injected activity id. -/
theorem C1_pairs_open_close_exactly_once (exp j stateD stateD2 activity
    runState : PyDict) (plat tok : String) (now now' : Int)
    (s : HandlerState) (hF : FreshBound s)
    (hg : s.continuousSpan = none ∨ aHas activity "tolerance" = false)
    (htok : tok ≠ "")
    (hAct : (activity.map Prod.fst).Nodup)
    (hStacks : (s.activityStacks.map Prod.fst).Nodup)
    (hSpans : (s.activitySpans.map Prod.fst).Nodup) :
    ((started exp plat now s).spans.length = s.spans.length + 1 ∧
    aGet (started exp plat now s).spans s.nextId =
      some (startedSpan exp plat now) ∧
    (finish j now' (started exp plat now s)).2 = none ∧
    (finish j now' (started exp plat now s)).1.spans.length =
      s.spans.length + 1 ∧
    (aGet (finish j now' (started exp plat now s)).1.spans
        s.nextId).map SpanData.endTime = some (some now') ∧
    (∀ k, k ≠ s.nextId →
      aGet (finish j now' (started exp plat now s)).1.spans k =
        aGet s.spans k) ∧
    (finish j now' (started exp plat now s)).1.rootSpan = none ∧
    (finish j now' (started exp plat now s)).1.rootStack = .emptied) ∧
    ((start_hypothesis_before now s).spans.length = s.spans.length + 1 ∧
    aGet (start_hypothesis_before now s).spans s.nextId =
      some (phaseSpan "before" s.rootSpan now) ∧
    (hypothesis_before_completed stateD now'
        (start_hypothesis_before now s)).2 = none ∧
    (hypothesis_before_completed stateD now'
        (start_hypothesis_before now s)).1.spans.length =
      s.spans.length + 1 ∧
    (aGet (hypothesis_before_completed stateD now'
        (start_hypothesis_before now s)).1.spans s.nextId).map
      SpanData.endTime = some (some now') ∧
    (∀ k, k ≠ s.nextId →
      aGet (hypothesis_before_completed stateD now'
          (start_hypothesis_before now s)).1.spans k = aGet s.spans k) ∧
    (hypothesis_before_completed stateD now'
        (start_hypothesis_before now s)).1.beforeSshSpan = none ∧
    (hypothesis_before_completed stateD now'
        (start_hypothesis_before now s)).1.beforeSshStack = .emptied ∧
    (hypothesis_before_completed stateD now'
        (start_hypothesis_before now s)).1.currentSpan = s.rootSpan) ∧
    ((start_hypothesis_after now s).spans.length = s.spans.length + 1 ∧
    aGet (start_hypothesis_after now s).spans s.nextId =
      some (phaseSpan "after" s.rootSpan now) ∧
    (hypothesis_after_completed stateD2 now'
        (start_hypothesis_after now s)).2 = none ∧
    (hypothesis_after_completed stateD2 now'
        (start_hypothesis_after now s)).1.spans.length =
      s.spans.length + 1 ∧
    (aGet (hypothesis_after_completed stateD2 now'
        (start_hypothesis_after now s)).1.spans s.nextId).map
      SpanData.endTime = some (some now') ∧
    (∀ k, k ≠ s.nextId →
      aGet (hypothesis_after_completed stateD2 now'
          (start_hypothesis_after now s)).1.spans k = aGet s.spans k) ∧
    (hypothesis_after_completed stateD2 now'
        (start_hypothesis_after now s)).1.afterSshSpan = none ∧
    (hypothesis_after_completed stateD2 now'
        (start_hypothesis_after now s)).1.afterSshStack = .emptied ∧
    (hypothesis_after_completed stateD2 now'
        (start_hypothesis_after now s)).1.currentSpan = s.rootSpan) ∧
    ((start_continuous_hypothesis now s).spans.length =
      s.spans.length + 1 ∧
    aGet (start_continuous_hypothesis now s).spans s.nextId =
      some (phaseSpan "continuous" s.rootSpan now) ∧
    (continuous_hypothesis_completed now'
        (start_continuous_hypothesis now s)).2 = none ∧
    (continuous_hypothesis_completed now'
        (start_continuous_hypothesis now s)).1.spans.length =
      s.spans.length + 1 ∧
    (aGet (continuous_hypothesis_completed now'
        (start_continuous_hypothesis now s)).1.spans s.nextId).map
      SpanData.endTime = some (some now') ∧
    (∀ k, k ≠ s.nextId →
      aGet (continuous_hypothesis_completed now'
          (start_continuous_hypothesis now s)).1.spans k =
        aGet s.spans k) ∧
    (continuous_hypothesis_completed now'
        (start_continuous_hypothesis now s)).1.continuousSpan = none ∧
    (continuous_hypothesis_completed now'
        (start_continuous_hypothesis now s)).1.continuousStack =
      .emptied) ∧
    ((start_method now s).spans.length = s.spans.length + 1 ∧
    aGet (start_method now s).spans s.nextId =
      some (plainSpan "method" s.rootSpan now) ∧
    (method_completed now' (start_method now s)).2 = none ∧
    (method_completed now' (start_method now s)).1.spans.length =
      s.spans.length + 1 ∧
    (aGet (method_completed now' (start_method now s)).1.spans
        s.nextId).map SpanData.endTime = some (some now') ∧
    (∀ k, k ≠ s.nextId →
      aGet (method_completed now' (start_method now s)).1.spans k =
        aGet s.spans k) ∧
    (method_completed now' (start_method now s)).1.methodSpan = none ∧
    (method_completed now' (start_method now s)).1.methodStack =
      .emptied ∧
    (method_completed now' (start_method now s)).1.currentSpan =
      s.rootSpan) ∧
    ((start_rollbacks now s).spans.length = s.spans.length + 1 ∧
    aGet (start_rollbacks now s).spans s.nextId =
      some (plainSpan "rollbacks" s.rootSpan now) ∧
    (rollbacks_completed now' (start_rollbacks now s)).2 = none ∧
    (rollbacks_completed now' (start_rollbacks now s)).1.spans.length =
      s.spans.length + 1 ∧
    (aGet (rollbacks_completed now' (start_rollbacks now s)).1.spans
        s.nextId).map SpanData.endTime = some (some now') ∧
    (∀ k, k ≠ s.nextId →
      aGet (rollbacks_completed now' (start_rollbacks now s)).1.spans k =
        aGet s.spans k) ∧
    (rollbacks_completed now' (start_rollbacks now s)).1.rollbacksSpan =
      none ∧
    (rollbacks_completed now' (start_rollbacks now s)).1.rollbacksStack =
      .emptied ∧
    (rollbacks_completed now' (start_rollbacks now s)).1.currentSpan =
      s.rootSpan) ∧
    ((start_activity tok activity now s).1.spans.length =
      s.spans.length + 1 ∧
    aGet (start_activity tok activity now s).1.spans s.nextId =
      some (activitySpan activity s.currentSpan now) ∧
    aGet (start_activity tok activity now s).2 "_id" =
      some (.vstr tok) ∧
    (activity_completed (start_activity tok activity now s).2 runState
        now' (start_activity tok activity now s).1).2 = none ∧
    (activity_completed (start_activity tok activity now s).2 runState
        now' (start_activity tok activity now s).1).1.1.spans.length =
      s.spans.length + 1 ∧
    (aGet (activity_completed (start_activity tok activity now s).2
        runState now'
        (start_activity tok activity now s).1).1.1.spans s.nextId).map
      SpanData.endTime = some (some now') ∧
    (∀ k, k ≠ s.nextId →
      aGet (activity_completed (start_activity tok activity now s).2
          runState now'
          (start_activity tok activity now s).1).1.1.spans k =
        aGet s.spans k) ∧
    aGet (activity_completed (start_activity tok activity now s).2
        runState now'
        (start_activity tok activity now s).1).1.1.activitySpans tok =
      none ∧
    aGet (activity_completed (start_activity tok activity now s).2
        runState now'
        (start_activity tok activity now s).1).1.1.activityStacks tok =
      none ∧
    aGet (activity_completed (start_activity tok activity now s).2
        runState now'
        (start_activity tok activity now s).1).1.2 "_id" = none) := by
  exact ⟨pair_experiment exp j plat now now' s hF,
    pair_hyp_before stateD now now' s hF,
    pair_hyp_after stateD2 now now' s hF,
    pair_continuous now now' s hF,
    pair_method now now' s hF,
    pair_rollbacks now now' s hF,
    pair_activity activity runState tok now now' s hF hg htok hAct
      hStacks hSpans⟩

/-- Witness for C1: the hypotheses hold at a concrete handler state and
activity record, and the instantiated theorem yields (here, its first
component) that `started` opens exactly one span. -/
theorem C1_witness :
    FreshBound initState ∧
    (initState.continuousSpan = none ∨
      aHas [("name", PyVal.vstr "a")] "tolerance" = false) ∧
    "ab12" ≠ "" ∧
    (([("name", PyVal.vstr "a")] : PyDict).map Prod.fst).Nodup ∧
    (initState.activityStacks.map Prod.fst).Nodup ∧
    (initState.activitySpans.map Prod.fst).Nodup ∧
    (started [] "linux" 0 initState).spans.length =
      initState.spans.length + 1 :=
  ⟨fun e he => absurd he (List.not_mem_nil e),
   Or.inl rfl, by decide, by decide, by decide, by decide,
   (C1_pairs_open_close_exactly_once [] [] [] [] [("name", .vstr "a")] []
      "linux" "ab12" 0 1 initState
      (fun e he => absurd he (List.not_mem_nil e)) (Or.inl rfl)
      (by decide) (by decide) (by decide) (by decide)).1.1⟩

end Oltp

namespace Oltp

/-- C3 counterexample: in the run started, start_method,
start_continuous_hypothesis, continuous_hypothesis_completed, the span
opened by `start_continuous_hypothesis` has the root span (id 0) as
parent although the current span at the moment of the call was the
method span (id 1); and after the continuous phase ends the pointer
still holds the method span, not the experiment root. -/
theorem C3_counterexample :
    (start_method 1 (started [] "linux" 0 initState)).currentSpan =
      some 1 ∧
    (aGet (start_continuous_hypothesis 2
        (start_method 1 (started [] "linux" 0 initState))).spans 2).map
      SpanData.parent = some (some 0) ∧
    some (0 : Nat) ≠
      (start_method 1 (started [] "linux" 0 initState)).currentSpan ∧
    (continuous_hypothesis_completed 3 (start_continuous_hypothesis 2
        (start_method 1 (started [] "linux" 0 initState)))).1.currentSpan =
      some 1 ∧
    (continuous_hypothesis_completed 3 (start_continuous_hypothesis 2
        (start_method 1 (started [] "linux" 0 initState)))).1.rootSpan =
      some 0 ∧
    (some (1 : Nat)) ≠ some (0 : Nat) := by
  refine ⟨rfl, rfl, by decide, rfl, rfl, by decide⟩

end Oltp

namespace Oltp

/-- C3 amended: activity spans parent under the current-span pointer at
the moment of the call (phase span when one overwrote the pointer,
otherwise the experiment root); phase spans (hypothesis before, after,
continuous, method, rollbacks) always parent under the root span; the
pointer is overwritten by the hypothesis-before/after, method and
rollbacks starts and restored to the root span by their completions,
while the continuous-hypothesis start and completion leave the pointer
untouched. -/
theorem C3_amended_parenting (activity stateD : PyDict) (tok : String)
    (now now' : Int) (s : HandlerState) (hF : FreshBound s)
    (hg : s.continuousSpan = none ∨ aHas activity "tolerance" = false) :
    (aGet (start_activity tok activity now s).1.spans s.nextId).map
      SpanData.parent = some s.currentSpan ∧
    (aGet (start_hypothesis_before now s).spans s.nextId).map
      SpanData.parent = some s.rootSpan ∧
    (aGet (start_hypothesis_after now s).spans s.nextId).map
      SpanData.parent = some s.rootSpan ∧
    (aGet (start_continuous_hypothesis now s).spans s.nextId).map
      SpanData.parent = some s.rootSpan ∧
    (aGet (start_method now s).spans s.nextId).map
      SpanData.parent = some s.rootSpan ∧
    (aGet (start_rollbacks now s).spans s.nextId).map
      SpanData.parent = some s.rootSpan ∧
    (start_hypothesis_before now s).currentSpan = some s.nextId ∧
    (start_hypothesis_after now s).currentSpan = some s.nextId ∧
    (start_method now s).currentSpan = some s.nextId ∧
    (start_rollbacks now s).currentSpan = some s.nextId ∧
    (start_continuous_hypothesis now s).currentSpan = s.currentSpan ∧
    (hypothesis_before_completed stateD now' s).1.currentSpan =
      s.rootSpan ∧
    (hypothesis_after_completed stateD now' s).1.currentSpan =
      s.rootSpan ∧
    (method_completed now' s).1.currentSpan = s.rootSpan ∧
    (rollbacks_completed now' s).1.currentSpan = s.rootSpan ∧
    (continuous_hypothesis_completed now' s).1.currentSpan =
      s.currentSpan := by
  have hne := freshB_ne hF
  have hget : ∀ d : SpanData,
      aGet (s.spans ++ [(s.nextId, d)]) s.nextId = some d :=
    fun d => aGet_append_fresh s.spans d hne
  refine ⟨?_, ?_, ?_, ?_, ?_, ?_, ?_, ?_, ?_, ?_, ?_, ?_, ?_, ?_, ?_, ?_⟩
  · rw [start_activity_eq tok activity now s hF hg]
    simp [hget, activitySpan]
  · rw [start_hypothesis_before_eq now s hF]
    simp [hget, phaseSpan]
  · rw [start_hypothesis_after_eq now s hF]
    simp [hget, phaseSpan]
  · rw [start_continuous_hypothesis_eq now s hF]
    simp [hget, phaseSpan]
  · rw [start_method_eq now s]
    simp [hget, plainSpan]
  · rw [start_rollbacks_eq now s]
    simp [hget, plainSpan]
  · rw [start_hypothesis_before_eq now s hF]
  · rw [start_hypothesis_after_eq now s hF]
  · rw [start_method_eq now s]
  · rw [start_rollbacks_eq now s]
  · rw [start_continuous_hypothesis_eq now s hF]
  · cases hsp : s.beforeSshSpan with
    | none => simp [hypothesis_before_completed, hsp]
    | some sid =>
      cases hst : s.beforeSshStack <;>
        simp [hypothesis_before_completed, hsp, hst, closeStack,
          endSpanAt, updateSpan, setAttr]
  · cases hsp : s.afterSshSpan with
    | none => simp [hypothesis_after_completed, hsp]
    | some sid =>
      cases hst : s.afterSshStack <;>
        simp [hypothesis_after_completed, hsp, hst, closeStack,
          endSpanAt, updateSpan, setAttr]
  · cases hst : s.methodStack <;>
      simp [method_completed, hst, closeStack, endSpanAt, updateSpan]
  · cases hst : s.rollbacksStack <;>
      simp [rollbacks_completed, hst, closeStack, endSpanAt, updateSpan]
  · cases hst : s.continuousStack <;>
      simp [continuous_hypothesis_completed, hst, closeStack, endSpanAt,
        updateSpan]

end Oltp

theorem aGet_append_of_fresh {κ α : Type} [DecidableEq κ] {k : κ}
    (l l2 : List (κ × α)) (h : ∀ e ∈ l, e.1 ≠ k) :
    aGet (l ++ l2) k = aGet l2 k := by
  induction l with
  | nil => rfl
  | cons e rest ih =>
    obtain ⟨k1, v1⟩ := e
    have he : k1 ≠ k := h (k1, v1) (by simp)
    rw [List.cons_append, aGet_cons, if_neg he]
    exact ih (fun e hm => h e (by simp [hm]))

theorem aGet_append_left {κ α : Type} [DecidableEq κ] {k : κ}
    (l l2 : List (κ × α)) (h : (aGet l k).isSome) :
    aGet (l ++ l2) k = aGet l k := by
  induction l with
  | nil => simp [aGet] at h
  | cons e rest ih =>
    obtain ⟨k1, v1⟩ := e
    by_cases h1 : k1 = k
    · rw [List.cons_append, aGet_cons, if_pos h1, aGet_cons, if_pos h1]
    · rw [aGet_cons, if_neg h1] at h
      rw [List.cons_append, aGet_cons, if_neg h1, aGet_cons, if_neg h1]
      exact ih h

theorem updKeyed_mid {κ α : Type} [DecidableEq κ] {k : κ}
    (f : α → α) (l1 l2 : List (κ × α)) (d : α)
    (h1 : ∀ e ∈ l1, e.1 ≠ k) (h2 : ∀ e ∈ l2, e.1 ≠ k) :
    updKeyed k f (l1 ++ (k, d) :: l2) = l1 ++ (k, f d) :: l2 := by
  induction l1 with
  | nil =>
    simp only [List.nil_append, updKeyed, List.map_cons, if_pos rfl]
    congr 1
    induction l2 with
    | nil => rfl
    | cons e2 r2 ih2 =>
      have he2 : e2.1 ≠ k := h2 e2 (by simp)
      simp only [List.map_cons, if_neg he2]
      rw [ih2 (fun e hm => h2 e (by simp [hm]))]
  | cons e rest ih =>
    have he : e.1 ≠ k := h1 e (by simp)
    obtain ⟨k1, v1⟩ := e
    simp only [List.cons_append, updKeyed, List.map_cons, if_neg he]
    have := ih (fun e hm => h1 e (by simp [hm]))
    simp only [updKeyed] at this
    rw [this]

theorem aGet_mid {κ α : Type} [DecidableEq κ] {k : κ}
    (l1 l2 : List (κ × α)) (d : α) (h1 : ∀ e ∈ l1, e.1 ≠ k) :
    aGet (l1 ++ (k, d) :: l2) k = some d := by
  rw [aGet_append_of_fresh l1 _ h1, aGet_cons, if_pos rfl]

namespace Oltp

theorem childSpans_keys_ge (pid : Nat) (ps : List ProbeRec) :
    ∀ k, ∀ e ∈ childSpans pid k ps, k ≤ e.1 := by
  induction ps with
  | nil => intro k e he; simp [childSpans] at he
  | cons p rest ih =>
    intro k e he
    rcases List.mem_cons.mp he with he | he
    · subst he; exact Nat.le_refl k
    · exact Nat.le_of_succ_le (ih (k + 1) e he)

theorem childSpans_length (pid : Nat) (ps : List ProbeRec) :
    ∀ k, (childSpans pid k ps).length = ps.length := by
  induction ps with
  | nil => intro k; rfl
  | cons p rest ih => intro k; simp [childSpans, ih (k + 1)]

theorem childSpans_get (pid : Nat) (ps : List ProbeRec) :
    ∀ k i (hi : i < ps.length),
      aGet (childSpans pid k ps) (k + i) =
        some (probeSpanOf pid (ps.get ⟨i, hi⟩)) := by
  induction ps with
  | nil => intro k i hi; simp at hi
  | cons p rest ih =>
    intro k i hi
    cases i with
    | zero => simp [childSpans, aGet_cons]
    | succ i2 =>
      have hne : k ≠ k + (i2 + 1) := by omega
      simp only [childSpans, aGet_cons, if_neg hne]
      have := ih (k + 1) i2 (by simpa using hi)
      have harith : k + 1 + i2 = k + (i2 + 1) := by omega
      rw [harith] at this
      rw [this]
      rfl

theorem freshB_snoc {s : HandlerState} (hF : FreshBound s)
    (d : SpanData) :
    FreshBound { s with spans := s.spans ++ [(s.nextId, d)],
                        nextId := s.nextId + 1 } := by
  intro e he
  rcases List.mem_append.mp he with he | he
  · exact Nat.lt_succ_of_lt (hF e he)
  · rcases List.mem_singleton.mp he with rfl
    exact Nat.lt_succ_self _

theorem runProbe_eq (pid : Nat) (p : ProbeRec) (s : HandlerState)
    (hF : FreshBound s) (hp : probeOk p = true) :
    runProbe pid p s =
      ({ s with spans := s.spans ++ [(s.nextId, probeSpanOf pid p)],
                nextId := s.nextId + 1 }, none) := by
  have hne := freshB_ne hF
  have hupd : ∀ (f : SpanData → SpanData) (d : SpanData),
      updKeyed s.nextId f (s.spans ++ [(s.nextId, d)]) =
        s.spans ++ [(s.nextId, f d)] :=
    fun f d => updKeyed_append_fresh f s.spans d hne
  cases h1 : aGet p.data "activity" with
  | none => simp [probeOk, h1] at hp
  | some v =>
    cases v with
    | vdict ad =>
      cases h2 : aGet ad "name" with
      | none => simp [probeOk, aHas, h1, h2] at hp
      | some nm =>
        have hact : probeActivity p = ad := by simp [probeActivity, h1]
        by_cases hx : pyTruthy (dGet p.data "exception") = true <;>
          have hx2 : pyTruthy ((aGet p.data "exception").getD .vnone) =
            pyTruthy (dGet p.data "exception") := by rw [dGet]
        · simp only [runProbe, allocSpan, setAttr, updateSpan, endSpanAt,
            h1, h2, hx, if_true, hupd]
          simp [probeSpanOf, hact, hx, hx2, aUpd, dGet, h2, hupd]
          rw [if_pos hx]
        · simp only [runProbe, allocSpan, setAttr, updateSpan, endSpanAt,
            h1, h2, hx, if_false, hupd]
          simp [probeSpanOf, hact, hx, hx2, aUpd, dGet, h2, hupd]
          rw [if_neg hx]
    | vnone => simp [probeOk, h1] at hp
    | vbool b => simp [probeOk, h1] at hp
    | vint n => simp [probeOk, h1] at hp
    | vstr t => simp [probeOk, h1] at hp
    | vlist l => simp [probeOk, h1] at hp

end Oltp

namespace Oltp

theorem runProbes_eq (pid : Nat) (ps : List ProbeRec) :
    ∀ (s : HandlerState), FreshBound s →
    (∀ p ∈ ps, probeOk p = true) →
    runProbes pid ps s =
      ({ s with spans := s.spans ++ childSpans pid s.nextId ps,
                nextId := s.nextId + ps.length }, none) := by
  induction ps with
  | nil =>
    intro s hF hok
    simp [runProbes, childSpans]
  | cons p rest ih =>
    intro s hF hok
    rw [runProbes, runProbe_eq pid p s hF (hok p (by simp))]
    have hstep := ih _ (freshB_snoc hF (probeSpanOf pid p))
      (fun q hq => hok q (by simp [hq]))
    simp only [] at hstep ⊢
    rw [hstep]
    simp only [childSpans, List.append_assoc, List.singleton_append,
      List.length_cons]
    have harith : s.nextId + 1 + rest.length = s.nextId + (rest.length + 1) :=
      by omega
    rw [harith]

end Oltp

namespace Oltp

theorem iteration_eval (iterIdx : Int) (first : ProbeRec)
    (rest : List ProbeRec) (met : PyVal) (now : Int) (s : HandlerState)
    (hF : FreshBound s)
    (hok : ∀ p ∈ first :: rest, probeOk p = true) :
    continuous_hypothesis_iteration iterIdx (first :: rest) met now s =
      ({ s with
          spans := s.spans ++
            (s.nextId, iterParentSpan iterIdx met s.continuousSpan first)
              :: childSpans s.nextId (s.nextId + 1) (first :: rest),
          nextId := s.nextId + 1 + (first :: rest).length }, none) := by
  have hne := freshB_ne hF
  have hupd : ∀ (f : SpanData → SpanData) (d : SpanData),
      updKeyed s.nextId f (s.spans ++ [(s.nextId, d)]) =
        s.spans ++ [(s.nextId, f d)] :=
    fun f d => updKeyed_append_fresh f s.spans d hne
  have hch : ∀ e ∈ childSpans s.nextId (s.nextId + 1) (first :: rest),
      e.1 ≠ s.nextId :=
    fun e he => Nat.ne_of_gt (Nat.lt_of_lt_of_le (Nat.lt_succ_self _)
      (childSpans_keys_ge s.nextId (first :: rest) (s.nextId + 1) e he))
  simp only [continuous_hypothesis_iteration, allocSpan, setAttr,
    updateSpan, hupd]
  simp only [Option.isSome_none, Bool.false_eq_true, if_false, aUpd]
  rw [runProbes_eq s.nextId (first :: rest) _
    (freshB_snoc hF _) hok]
  simp only [List.append_assoc, List.singleton_append, endSpanAt,
    updateSpan]
  rw [updKeyed_mid _ _ _ _ hne hch]
  simp [iterParentSpan, aUpd]

end Oltp

namespace Oltp

/-- C5: a continuous-hypothesis iteration whose state carries a
nonempty list of well-formed probes creates exactly one parent span for
the iteration plus one child span per probe; the parent span parents
under the continuous-hypothesis span and records the parsed timestamps
of the first probe, each child span parents under the iteration parent
and records the parsed start and end timestamps of its own probe (and
is closed with that end timestamp); previously recorded spans are
untouched, and the result does not depend on the call time at all. -/
theorem C5_iteration_historical_timestamps (iterIdx : Int)
    (first : ProbeRec) (rest : List ProbeRec) (met : PyVal)
    (now now2 : Int) (s : HandlerState) (hF : FreshBound s)
    (hok : ∀ p ∈ first :: rest, probeOk p = true) :
    (continuous_hypothesis_iteration iterIdx (first :: rest) met now
      s).2 = none ∧
    (continuous_hypothesis_iteration iterIdx (first :: rest) met now
        s).1.spans.length =
      s.spans.length + 1 + (first :: rest).length ∧
    aGet (continuous_hypothesis_iteration iterIdx (first :: rest) met
        now s).1.spans s.nextId =
      some (iterParentSpan iterIdx met s.continuousSpan first) ∧
    (iterParentSpan iterIdx met s.continuousSpan first).startTime =
      parseTs first.start ∧
    (iterParentSpan iterIdx met s.continuousSpan first).endTime =
      some (parseTs first.stop) ∧
    (iterParentSpan iterIdx met s.continuousSpan first).parent =
      s.continuousSpan ∧
    (∀ i (hi : i < (first :: rest).length),
      aGet (continuous_hypothesis_iteration iterIdx (first :: rest) met
          now s).1.spans (s.nextId + 1 + i) =
        some (probeSpanOf s.nextId ((first :: rest).get ⟨i, hi⟩))) ∧
    (∀ p : ProbeRec,
      (probeSpanOf s.nextId p).startTime = parseTs p.start ∧
      (probeSpanOf s.nextId p).endTime = some (parseTs p.stop) ∧
      (probeSpanOf s.nextId p).parent = some s.nextId) ∧
    (∀ k, (aGet s.spans k).isSome →
      aGet (continuous_hypothesis_iteration iterIdx (first :: rest) met
          now s).1.spans k = aGet s.spans k) ∧
    continuous_hypothesis_iteration iterIdx (first :: rest) met now2 s =
      continuous_hypothesis_iteration iterIdx (first :: rest) met now
        s := by
  have hne := freshB_ne hF
  have heval := iteration_eval iterIdx first rest met now s hF hok
  refine ⟨by rw [heval], ?_, ?_, rfl, rfl, rfl, ?_, fun p => ⟨rfl, rfl, rfl⟩,
    ?_, rfl⟩
  · rw [heval]
    simp [childSpans_length]
    omega
  · rw [heval]
    exact aGet_mid s.spans _ _ hne
  · intro i hi
    rw [heval]
    have h1 : ∀ e ∈ s.spans, e.1 ≠ s.nextId + 1 + i :=
      fun e he => Nat.ne_of_lt (by
        have := hF e he
        omega)
    rw [aGet_append_of_fresh _ _ h1, aGet_cons,
      if_neg (by omega : ¬ s.nextId = s.nextId + 1 + i)]
    have := childSpans_get s.nextId (first :: rest) (s.nextId + 1) i hi
    have harith : s.nextId + 1 + i = s.nextId + 1 + i := rfl
    rw [this]
  · intro k hk
    rw [heval]
    exact aGet_append_left _ _ hk

end Oltp

namespace Oltp

/-- C8: while a continuous hypothesis is running, `start_activity` on
an activity record carrying a tolerance is a complete no-op (no span
allocated, nothing registered, the activity record untouched), and
`activity_completed` on an activity record without an injected id is a
complete no-op as well, raising nothing. -/
theorem C8_tolerance_probe_excluded (activity runState : PyDict)
    (tok : String) (now now' : Int) (s : HandlerState) (c : Nat)
    (hc : s.continuousSpan = some c)
    (ht : aHas activity "tolerance" = true)
    (hid : aGet activity "_id" = none) :
    start_activity tok activity now s = (s, activity) ∧
    activity_completed activity runState now' s = ((s, activity), none) := by
  refine ⟨start_activity_skip tok activity now s c hc ht, ?_⟩
  simp [activity_completed, hid]

/-- C9 counterexample: after started and then interrupted (and likewise
signal_exit), the root experiment span carries the interruption tag but
its end time is still unset and the root stack is still pending: the
notification handlers tag the root span but do not close it. -/
theorem C9_counterexample :
    (interrupted (started [] "linux" 0 initState)).2 = none ∧
    (aGet (interrupted (started [] "linux" 0 initState)).1.spans 0).map
      SpanData.endTime = some none ∧
    (interrupted (started [] "linux" 0 initState)).1.rootStack =
      .pending 0 ∧
    (aGet (interrupted (started [] "linux" 0 initState)).1.spans 0).map
      (fun d => aGet d.attrs "chaostoolkit.experiment.interrupted") =
      some (some (.py (.vbool true))) ∧
    (signal_exit (started [] "linux" 0 initState)).2 = none ∧
    (aGet (signal_exit (started [] "linux" 0 initState)).1.spans 0).map
      SpanData.endTime = some none ∧
    (signal_exit (started [] "linux" 0 initState)).1.rootStack =
      .pending 0 := by
  exact ⟨rfl, rfl, rfl, rfl, rfl, rfl, rfl⟩

/-- C9 amended: when a root span is registered and open, `interrupted`
and `signal_exit` raise nothing and tag the root span with the
interruption marker, but close no span at all (every end time is
unchanged) and leave the root slot and its stack registered as they
were; the root span is only closed later by `finish`. -/
theorem C9_amended_interrupt_tags_without_closing (s : HandlerState)
    (sid : Nat) (d : SpanData) (h : s.rootSpan = some sid)
    (hd : aGet s.spans sid = some d) (hopen : d.endTime = none) :
    (interrupted s).2 = none ∧
    aGet (interrupted s).1.spans sid =
      some { d with attrs := (aUpd d.attrs
        "chaostoolkit.experiment.interrupted" (.py (.vbool true))) } ∧
    (∀ k, (aGet (interrupted s).1.spans k).map SpanData.endTime =
      (aGet s.spans k).map SpanData.endTime) ∧
    (interrupted s).1.rootStack = s.rootStack ∧
    (interrupted s).1.rootSpan = s.rootSpan ∧
    (signal_exit s).2 = none ∧
    aGet (signal_exit s).1.spans sid =
      some { d with attrs := (aUpd d.attrs
        "chaostoolkit.experiment.exit_signal" (.py (.vbool true))) } ∧
    (∀ k, (aGet (signal_exit s).1.spans k).map SpanData.endTime =
      (aGet s.spans k).map SpanData.endTime) ∧
    (signal_exit s).1.rootStack = s.rootStack := by
  simp only [interrupted, signal_exit, h, setAttr, updateSpan]
  refine ⟨True.intro, ?_, ?_, True.intro, True.intro, True.intro, ?_, ?_,
    True.intro⟩
  · rw [aGet_updKeyed_self, hd]
    simp [hopen]
  · intro k
    by_cases hk : k = sid
    · subst hk
      rw [aGet_updKeyed_self, hd]
      simp [hopen]
    · rw [aGet_updKeyed_ne _ _ hk]
  · rw [aGet_updKeyed_self, hd]
    simp [hopen]
  · intro k
    by_cases hk : k = sid
    · subst hk
      rw [aGet_updKeyed_self, hd]
      simp [hopen]
    · rw [aGet_updKeyed_ne _ _ hk]

/-- C10: a registering `start_activity` call changes the activity
record exactly by inserting the supplied fresh token under the key
`_id` (every other key reads as before), and the matching
`activity_completed` call removes that key again, leaving every other
key of the activity record unchanged. -/
theorem C10_activity_id_insert_remove_frame (activity runState : PyDict)
    (tok : String) (now now' : Int) (s : HandlerState)
    (hF : FreshBound s)
    (hg : s.continuousSpan = none ∨ aHas activity "tolerance" = false)
    (htok : tok ≠ "")
    (hAct : (activity.map Prod.fst).Nodup) :
    (start_activity tok activity now s).2 =
      aUpd activity "_id" (.vstr tok) ∧
    aGet (start_activity tok activity now s).2 "_id" =
      some (.vstr tok) ∧
    (∀ k, k ≠ "_id" → aGet (start_activity tok activity now s).2 k =
      aGet activity k) ∧
    aGet (activity_completed (start_activity tok activity now s).2
      runState now' (start_activity tok activity now s).1).1.2 "_id" =
      none ∧
    (∀ k, k ≠ "_id" →
      aGet (activity_completed (start_activity tok activity now s).2
        runState now' (start_activity tok activity now s).1).1.2 k =
      aGet activity k) := by
  have hne := freshB_ne hF
  have htokb : pyTruthy (.vstr tok) = true := by simp [pyTruthy, htok]
  have hdelAct :
      aGet (aDel (aUpd activity "_id" (.vstr tok)) "_id") "_id" = none :=
    aGet_aDel_self _ _ (aUpd_keys_nodup _ _ _ hAct)
  rw [start_activity_eq tok activity now s hF hg]
  refine ⟨rfl, aGet_aUpd_self _ _ _, fun k hk => aGet_aUpd_ne _ _ hk,
    ?_, ?_⟩
  · by_cases hx : pyTruthy (dGet runState "exception") = true <;>
      simp only [activity_completed, aGet_aUpd_self, htokb, hx, setAttr,
        updateSpan, endSpanAt, if_true, not_true_eq_false,
        Bool.false_eq_true, if_false, hdelAct]
  · intro k hk
    by_cases hx : pyTruthy (dGet runState "exception") = true <;>
      simp only [activity_completed, aGet_aUpd_self, htokb, hx, setAttr,
        updateSpan, endSpanAt, if_true, not_true_eq_false,
        Bool.false_eq_true, if_false] <;>
      rw [aGet_aDel_ne _ hk, aGet_aUpd_ne _ _ hk]

end Oltp

namespace Ctl

/-- C2 (bug evidence): `after_experiment_control` invoked with no
active scope (no `before_experiment_control` happened, ThreadLocal
scope manager) dereferences `scope.span` on `None` and lets an
`AttributeError` escape into the host engine; moreover
`after_hypothesis_control` invoked right after
`before_experiment_control` (no matching before-hypothesis) closes the
experiment scope, finishing the unrelated experiment span. -/
theorem C2_after_without_before_raises :
    after_experiment_control [] (initTracer false) =
      (initTracer false, some .attributeError) ∧
    (aGet (before_experiment_control [("title", PyVal.vstr "exp")]
        (initTracer false)).1.otSpans 0).map
      (fun d => d.finishCount) = some 0 ∧
    (aGet (after_hypothesis_control []
        (before_experiment_control [("title", PyVal.vstr "exp")]
          (initTracer false)).1).1.otSpans 0).map
      (fun d => d.finishCount) = some 1 := by
  exact ⟨rfl, rfl, rfl⟩

/-- C4 (bug evidence): in the run before_experiment, before_method,
after_method, after_method, the first `after_method_control` finishes
the method span and restores the experiment scope; the second call is
not a no-op and does not fail: it closes the now-active experiment
scope, finishing the experiment span prematurely.  No span handle is
finished twice (both spans end with finish count one). -/
theorem C4_second_after_method_closes_parent :
    (aGet (after_method_control (before_method_control
        (before_experiment_control [("title", PyVal.vstr "exp")]
          (initTracer false)).1).1).otSpans 0).map
      (fun d => d.finishCount) = some 0 ∧
    (aGet (after_method_control (before_method_control
        (before_experiment_control [("title", PyVal.vstr "exp")]
          (initTracer false)).1).1).otSpans 1).map
      (fun d => d.finishCount) = some 1 ∧
    (aGet (after_method_control (after_method_control
        (before_method_control
          (before_experiment_control [("title", PyVal.vstr "exp")]
            (initTracer false)).1).1)).otSpans 0).map
      (fun d => d.finishCount) = some 1 ∧
    (aGet (after_method_control (after_method_control
        (before_method_control
          (before_experiment_control [("title", PyVal.vstr "exp")]
            (initTracer false)).1).1)).otSpans 0).map
      (fun d => aGet d.tags "type") =
      some (some (PyVal.vstr "experiment")) ∧
    (aGet (after_method_control (after_method_control
        (before_method_control
          (before_experiment_control [("title", PyVal.vstr "exp")]
            (initTracer false)).1).1)).otSpans 1).map
      (fun d => d.finishCount) = some 1 ∧
    (after_method_control (after_method_control (before_method_control
        (before_experiment_control [("title", PyVal.vstr "exp")]
          (initTracer false)).1).1)).active = none := by
  exact ⟨rfl, rfl, rfl, rfl, rfl, rfl⟩

end Ctl

theorem aGet_foldl_aUpd_not_mem {κ α β : Type} [DecidableEq κ]
    (g : β → α) (ups : List (κ × β)) :
    ∀ (l : List (κ × α)) (k : κ), k ∉ ups.map Prod.fst →
      aGet (ups.foldl (fun d e => aUpd d e.1 (g e.2)) l) k = aGet l k := by
  induction ups with
  | nil => intro l k _; rfl
  | cons e rest ih =>
    intro l k hk
    rw [List.map_cons] at hk
    have hk1 : k ≠ e.1 := fun hh => hk (by simp [hh])
    have hk2 : k ∉ rest.map Prod.fst := fun hh => hk (by simp [hh])
    rw [List.foldl_cons, ih _ k hk2, aGet_aUpd_ne _ _ hk1]

theorem aGet_foldl_aUpd_mem {κ α β : Type} [DecidableEq κ]
    (g : β → α) (ups : List (κ × β)) :
    ∀ (l : List (κ × α)) (e : κ × β), e ∈ ups →
      (ups.map Prod.fst).Nodup →
      aGet (ups.foldl (fun d e2 => aUpd d e2.1 (g e2.2)) l) e.1 =
        some (g e.2) := by
  induction ups with
  | nil => intro l e he _; simp at he
  | cons e2 rest ih =>
    intro l e he hnod
    rw [List.map_cons, List.nodup_cons] at hnod
    rw [List.foldl_cons]
    rcases List.mem_cons.mp he with he | he
    · subst he
      rw [aGet_foldl_aUpd_not_mem g rest _ e.1 hnod.1,
        aGet_aUpd_self]
    · exact ih _ e he hnod.2

namespace Ctl

theorem activeScope_some {s : TracerState} {scid : Nat} {sc : ScopeRec}
    (h : activeScope s = some (scid, sc)) :
    s.active = some scid ∧ aGet s.scopes scid = some sc := by
  unfold activeScope at h
  cases ha : s.active with
  | none => simp [ha] at h
  | some scid2 =>
    simp only [ha] at h
    cases hg : aGet s.scopes scid2 with
    | none => simp [hg] at h
    | some sc2 =>
      simp only [hg, Option.map_some, Option.some.injEq,
        Prod.mk.injEq] at h
      obtain ⟨rfl, rfl⟩ := h
      exact ⟨rfl, hg⟩

end Ctl

namespace Ctl

/-- C6: for an activity whose provider has type http, the hook raises
nothing, the newly opened span is tagged with the upper-cased method
(read from the provider, defaulting to GET), the provider url, and
span.kind client (after the span-open tags type and activity), the
provider payload is logged, and the provider header map gains exactly
the propagation entries the tracer injects, every other header key
reading as before. -/
theorem C6_http_activity_tags_and_injection (activity pd hd : PyDict)
    (inj : List (String × String)) (s : TracerState) (scid : Nat)
    (sc : ScopeRec) (m : String) (u : PyVal)
    (hA : activeScope s = some (scid, sc))
    (hF : FreshSpans s)
    (hProv : aGet activity "provider" = some (.vdict pd))
    (hTy : aGet pd "type" = some (.vstr "http"))
    (hM : dGetD pd "method" (.vstr "GET") = .vstr m)
    (hH : dGetD pd "headers" (.vdict []) = .vdict hd)
    (hU : aGet pd "url" = some u)
    (hInj : (inj.map Prod.fst).Nodup) :
    (before_activity_control activity inj s).2 = none ∧
    aGet (before_activity_control activity inj s).1.1.otSpans
        s.nextSpan =
      some { name := dGet activity "name", parent := some sc.spanId,
             tags := [("type", .vstr "activity"),
                      ("activity", dGet activity "type"),
                      ("http.method", .vstr (pyUpper m)),
                      ("http.url", u),
                      ("span.kind", .vstr "client")],
             logs := [logKvProcess s.isShim pd], finishCount := 0 } ∧
    aGet (before_activity_control activity inj s).1.2 "provider" =
      some (.vdict (aUpd pd "headers" (.vdict (inj.foldl
        (fun d e => aUpd d e.1 (PyVal.vstr e.2)) hd)))) ∧
    (∀ e ∈ inj,
      aGet (inj.foldl (fun d e2 => aUpd d e2.1 (PyVal.vstr e2.2)) hd)
        e.1 = some (.vstr e.2)) ∧
    (∀ k, k ∉ inj.map Prod.fst →
      aGet (inj.foldl (fun d e2 => aUpd d e2.1 (PyVal.vstr e2.2)) hd) k =
        aGet hd k) := by
  have hne : ∀ e ∈ s.otSpans, e.1 ≠ s.nextSpan :=
    fun e he => Nat.ne_of_lt (hF e he)
  have hupd : ∀ (f : OTSpanData → OTSpanData) (d : OTSpanData),
      updKeyed s.nextSpan f (s.otSpans ++ [(s.nextSpan, d)]) =
        s.otSpans ++ [(s.nextSpan, f d)] :=
    fun f d => updKeyed_append_fresh f s.otSpans d hne
  have hget : ∀ d : OTSpanData,
      aGet (s.otSpans ++ [(s.nextSpan, d)]) s.nextSpan = some d :=
    fun d => aGet_append_fresh s.otSpans d hne
  have hpd : pd.isEmpty = false := by
    cases pd with
    | nil => simp [aGet] at hTy
    | cons e r => rfl
  simp only [before_activity_control, hA, startActiveSpan, setTag,
    logKv, hpd, Bool.false_eq_true, if_false, hProv, hTy, pyEqStr, hH,
    hM, hU, hupd, hget]
  refine ⟨?_, ?_, ?_, fun e he => aGet_foldl_aUpd_mem _ inj hd e he hInj,
    fun k hk => aGet_foldl_aUpd_not_mem _ inj hd k hk⟩
  · simp
  · simp only [decide_True, if_true, hget]
    simp [aUpd]
  · simp only [decide_True, if_true]
    exact aGet_aUpd_self _ _ _

end Ctl

namespace Ctl

/-- C7: when the hypothesis state carries a falsy steady_state_met, the
closing span is tagged deviated true; with probes recorded, the span is
additionally tagged error true and receives one log batch holding the
last probe of the list: its activity name under probe, its declared
tolerance under expected, and its output under computed; the scope is
closed, finishing the span exactly once.  When steady_state_met is
truthy the span is tagged deviated false and no log is attached. -/
theorem C7_deviated_tagging_and_error_log (stateD stateD2 dpd ad : PyDict)
    (ps : List PyVal) (nm tol outv : PyVal) (s : TracerState)
    (scid : Nat) (sc : ScopeRec) (d0 : OTSpanData)
    (hA : activeScope s = some (scid, sc))
    (hd0 : aGet s.otSpans sc.spanId = some d0)
    (hfc : sc.finishOnClose = true)
    (hmet : pyTruthy (dGet stateD "steady_state_met") = false)
    (hprobes : aGet stateD "probes" = some (.vlist ps))
    (hlast : ps.getLast? = some (.vdict dpd))
    (hact : aGet dpd "activity" = some (.vdict ad))
    (hnm : aGet ad "name" = some nm)
    (htol : aGet ad "tolerance" = some tol)
    (hout : aGet dpd "output" = some outv)
    (hmet2 : pyTruthy (dGet stateD2 "steady_state_met") = true) :
    (after_hypothesis_control stateD s).2 = none ∧
    aGet (after_hypothesis_control stateD s).1.otSpans sc.spanId =
      some { d0 with
        tags := (aUpd (aUpd d0.tags "deviated" (.vbool true))
          "error" (.vbool true)),
        logs := (d0.logs ++ [logKvProcess s.isShim
          [("probe", nm), ("expected", tol), ("computed", outv)]]),
        finishCount := d0.finishCount + 1 } ∧
    (after_hypothesis_control stateD2 s).2 = none ∧
    aGet (after_hypothesis_control stateD2 s).1.otSpans sc.spanId =
      some { d0 with
        tags := (aUpd d0.tags "deviated" (.vbool false)),
        finishCount := d0.finishCount + 1 } := by
  obtain ⟨hact1, hact2⟩ := activeScope_some hA
  have hhas : aHas stateD "probes" = true := by
    simp [aHas, hprobes]
  have hprobes' : dGet stateD "probes" = .vlist ps := by
    simp [dGet, hprobes]
  simp only [after_hypothesis_control, hA, hmet, hmet2, hhas, hprobes',
    hlast, hact, hnm, htol, hout, setTag, logKv, scopeClose, spanFinish,
    hact1, hact2, hfc, Bool.false_eq_true, not_false_eq_true,
    decide_True, not_true, decide_False, Bool.false_and, Bool.true_and,
    Bool.and_self, if_true, if_false, List.isEmpty_cons]
  refine ⟨True.intro, ?_, True.intro, ?_⟩ <;>
    simp [aGet_updKeyed_self, hd0]

end Ctl

namespace Oltp

/-- Witness for C3 amended: the hypotheses hold at the initial handler
state, and the instantiated theorem yields (first component) that the
activity span opened there parents under the current span pointer. -/
theorem C3_witness :
    FreshBound initState ∧
    (initState.continuousSpan = none ∨
      aHas ([] : PyDict) "tolerance" = false) ∧
    (aGet (start_activity "t1" [] 0 initState).1.spans 0).map
      SpanData.parent = some initState.currentSpan :=
  ⟨fun e he => absurd he (List.not_mem_nil e), Or.inl rfl,
   (C3_amended_parenting [] [] "t1" 0 1 initState
      (fun e he => absurd he (List.not_mem_nil e)) (Or.inl rfl)).1⟩

/-- Witness for C5: the hypotheses hold for a concrete probe and the
initial handler state, and the instantiated theorem yields (first
component) that the iteration raises nothing there. -/
theorem C5_witness :
    FreshBound initState ∧
    (∀ p ∈ [wProbe], probeOk p = true) ∧
    (continuous_hypothesis_iteration 0 (wProbe :: []) (.vbool true) 5
      initState).2 = none :=
  ⟨fun e he => absurd he (List.not_mem_nil e),
   by intro p hp; rw [List.mem_singleton] at hp; subst hp; rfl,
   (C5_iteration_historical_timestamps 0 wProbe [] (.vbool true) 5 6
      initState (fun e he => absurd he (List.not_mem_nil e))
      (by intro p hp; rw [List.mem_singleton] at hp; subst hp; rfl)).1⟩

/-- Witness for C8: the hypotheses hold after starting a continuous
hypothesis from the initial state, with a tolerance-carrying activity,
and the instantiated theorem yields that start_activity is a no-op. -/
theorem C8_witness :
    (start_continuous_hypothesis 0 initState).continuousSpan = some 0 ∧
    aHas [("tolerance", PyVal.vint 5)] "tolerance" = true ∧
    aGet [("tolerance", PyVal.vint 5)] "_id" = none ∧
    start_activity "t2" [("tolerance", PyVal.vint 5)] 1
        (start_continuous_hypothesis 0 initState) =
      (start_continuous_hypothesis 0 initState,
       [("tolerance", PyVal.vint 5)]) :=
  ⟨rfl, rfl, rfl,
   (C8_tolerance_probe_excluded [("tolerance", .vint 5)] [] "t2" 1 2
      (start_continuous_hypothesis 0 initState) 0 rfl rfl rfl).1⟩

/-- Witness for C9 amended: the hypotheses hold after `started` from
the initial state, and the instantiated theorem yields that
`interrupted` raises nothing there. -/
theorem C9_witness :
    (started [] "linux" 0 initState).rootSpan = some 0 ∧
    aGet (started [] "linux" 0 initState).spans 0 =
      some (startedSpan [] "linux" 0) ∧
    (startedSpan [] "linux" 0).endTime = none ∧
    (interrupted (started [] "linux" 0 initState)).2 = none :=
  ⟨rfl, rfl, rfl,
   (C9_amended_interrupt_tags_without_closing
      (started [] "linux" 0 initState) 0 (startedSpan [] "linux" 0)
      rfl rfl rfl).1⟩

/-- Witness for C10: the hypotheses hold at the initial handler state
with a one-key activity record, and the instantiated theorem yields
that start_activity returns the record with the id key injected. -/
theorem C10_witness :
    FreshBound initState ∧
    (initState.continuousSpan = none ∨
      aHas [("name", PyVal.vstr "a1")] "tolerance" = false) ∧
    "tok1" ≠ "" ∧
    (([("name", PyVal.vstr "a1")] : PyDict).map Prod.fst).Nodup ∧
    (start_activity "tok1" [("name", PyVal.vstr "a1")] 0 initState).2 =
      aUpd [("name", PyVal.vstr "a1")] "_id" (.vstr "tok1") :=
  ⟨fun e he => absurd he (List.not_mem_nil e), Or.inl rfl, by decide,
   by decide,
   (C10_activity_id_insert_remove_frame [("name", .vstr "a1")] [] "tok1"
      0 1 initState (fun e he => absurd he (List.not_mem_nil e))
      (Or.inl rfl) (by decide) (by decide)).1⟩

end Oltp

namespace Ctl

/-- Witness for C6: the hypotheses hold at the concrete tracer and http
activity, and the instantiated theorem yields that the hook raises
nothing there. -/
theorem C6_witness :
    activeScope wTracer = some (0, ⟨0, none, true⟩) ∧
    aGet wHttpActivity "provider" = some (.vdict wProvider) ∧
    aGet wProvider "type" = some (.vstr "http") ∧
    dGetD wProvider "method" (.vstr "GET") = .vstr "post" ∧
    dGetD wProvider "headers" (.vdict []) = .vdict [] ∧
    aGet wProvider "url" = some (.vstr "https://x") ∧
    (before_activity_control wHttpActivity [("traceparent", "00-abc")]
      wTracer).2 = none :=
  ⟨rfl, rfl, rfl, rfl, rfl, rfl,
   (C6_http_activity_tags_and_injection wHttpActivity wProvider []
      [("traceparent", "00-abc")] wTracer 0 ⟨0, none, true⟩ "post"
      (.vstr "https://x") rfl
      (by
        intro e he
        simp only [wTracer, List.mem_singleton] at he
        subst he
        exact Nat.zero_lt_one)
      rfl rfl rfl rfl rfl (by decide)).1⟩

/-- Witness for C7: the hypotheses hold at the concrete tracer and
deviated hypothesis state, and the instantiated theorem yields that the
hook raises nothing there. -/
theorem C7_witness :
    activeScope wTracer = some (0, ⟨0, none, true⟩) ∧
    pyTruthy (dGet wDevState "steady_state_met") = false ∧
    (after_hypothesis_control wDevState wTracer).2 = none :=
  ⟨rfl, rfl,
   (C7_deviated_tagging_and_error_log wDevState
      [("steady_state_met", .vbool true)]
      [("activity", .vdict [("name", .vstr "p1"), ("tolerance", .vint 5)]),
       ("output", .vint 7)]
      [("name", .vstr "p1"), ("tolerance", .vint 5)]
      [.vdict [("activity", .vdict [("name", .vstr "p1"),
        ("tolerance", .vint 5)]), ("output", .vint 7)]]
      (.vstr "p1") (.vint 5) (.vint 7) wTracer 0 ⟨0, none, true⟩
      { name := .vstr "exp", parent := none, tags := [], logs := [],
        finishCount := 0 }
      rfl rfl rfl rfl rfl rfl rfl rfl rfl rfl rfl).1⟩

end Ctl
